import Mathlib

/-!
# Verification of the cupy kernel-fusion tracer (`cupy/core/fusion.py`)

This file is a shallow embedding, in Lean 4, of the parts of
`src/cupy/core/fusion.py` that the verified claims are about: the dtype
registry, CUDA variables, submodules, shadow values, the fusion history
(tracer), ufunc dispatch (`call_ufunc`), reduction dispatch
(`set_reduce_op` and the reduction wrapper), the submodule emitter and the
`Fusion.__call__` facade.

Python's mutable objects are rendered as explicit state passing: the
`_FusionHistory` object becomes a `FusionHistory` record threaded through
every operation, and in-place mutation of a `_FusionVarCUDA` (the
`mutate()` call) becomes an index-directed update of the history's
variable lists.  Fallible code returns `Except FusionError`.

The source delegates casting decisions to the external numpy library
(`numpy.can_cast`, value-based casting for scalars); sections below model
those external calls concretely, following numpy's documented casting
semantics for the fixed set of dtypes the source supports.
-/

set_option maxRecDepth 4096

namespace CupyFusion

/-! ## Dtype registry (`_kind_score`, `_dtype_to_ctype`, `_dtype_list`) -/

/-- The enumerated numeric dtypes supported by the fusion core
(`_dtype_list = [numpy.dtype(_) for _ in '?bhilqBHILQefdFD']`; on the
64-bit linux target `l`/`q` and `L`/`Q` denote the same 64-bit dtypes). -/
inductive Dtype where
  | bool
  | int8 | int16 | int32 | int64
  | uint8 | uint16 | uint32 | uint64
  | float16 | float32 | float64
  | complex64 | complex128
deriving DecidableEq, Repr, Inhabited

/-- numpy kind characters: `b`, `u`, `i`, `f`, `c`. -/
inductive NumpyKind where
  | b | u | i | f | c
deriving DecidableEq, Repr

def Dtype.kind : Dtype → NumpyKind
  | .bool => .b
  | .int8 | .int16 | .int32 | .int64 => .i
  | .uint8 | .uint16 | .uint32 | .uint64 => .u
  | .float16 | .float32 | .float64 => .f
  | .complex64 | .complex128 => .c

/-- `_kind_score = {'b': 0, 'u': 1, 'i': 1, 'f': 2, 'c': 2}`. -/
def kind_score : NumpyKind → Int
  | .b => 0
  | .u => 1
  | .i => 1
  | .f => 2
  | .c => 2

/-- `_dtype_to_ctype`: the dtype → C-type-name table from the source. -/
def dtype_to_ctype : Dtype → String
  | .float64 => "double"
  | .float32 => "float"
  | .float16 => "float16"
  | .complex128 => "complex<double>"
  | .complex64 => "complex<float>"
  | .int64 => "long long"
  | .int32 => "int"
  | .int16 => "short"
  | .int8 => "signed char"
  | .uint64 => "unsigned long long"
  | .uint32 => "unsigned int"
  | .uint16 => "unsigned short"
  | .uint8 => "unsigned char"
  | .bool => "bool"

/-- The name numpy prints for each dtype (used for `astype_{}` names). -/
def Dtype.name : Dtype → String
  | .bool => "bool"
  | .int8 => "int8" | .int16 => "int16" | .int32 => "int32" | .int64 => "int64"
  | .uint8 => "uint8" | .uint16 => "uint16" | .uint32 => "uint32"
  | .uint64 => "uint64"
  | .float16 => "float16" | .float32 => "float32" | .float64 => "float64"
  | .complex64 => "complex64" | .complex128 => "complex128"

/-- Storage width in bits of the boolean and integer dtypes (numpy treats
`bool` as an 8-bit storage type for min-scalar purposes). -/
def Dtype.ibits : Dtype → Nat
  | .bool => 8
  | .int8 | .uint8 => 8
  | .int16 | .uint16 => 16
  | .int32 | .uint32 => 32
  | .int64 | .uint64 => 64
  | .float16 => 16 | .float32 => 32 | .float64 => 64
  | .complex64 => 64 | .complex128 => 128

/-- Number of integer values exactly representable by a floating dtype
(mantissa digits; for complex dtypes, of each component). -/
def Dtype.mantissaDigits : Dtype → Nat
  | .float16 => 11
  | .float32 => 24
  | .float64 => 53
  | .complex64 => 24
  | .complex128 => 53
  | _ => 0

/-! ## Model of the external `numpy.can_cast` (dtype level, `safe` rule)

Modelled from numpy's documented casting semantics: `safe` casting
permits only casts that preserve every value.  The fusion source calls
`numpy.can_cast` with dtype (or scalar-type) arguments at
`can_cast1`/`can_cast2` (fusion.py lines 553-578) and in `set_reduce_op`
(line 498). -/

def numpy_can_cast (src dst : Dtype) : Bool :=
  match src.kind with
  | .b => true
  | .u =>
    match dst.kind with
    | .b => false
    | .u => src.ibits ≤ dst.ibits
    | .i => src.ibits < dst.ibits
    | .f => src.ibits ≤ dst.mantissaDigits
    | .c => src.ibits ≤ dst.mantissaDigits
  | .i =>
    match dst.kind with
    | .b => false
    | .u => false
    | .i => src.ibits ≤ dst.ibits
    | .f => src.ibits - 1 ≤ dst.mantissaDigits
    | .c => src.ibits - 1 ≤ dst.mantissaDigits
  | .f =>
    match dst.kind with
    | .f => src.mantissaDigits ≤ dst.mantissaDigits
    | .c => src.mantissaDigits ≤ dst.mantissaDigits
    | _ => false
  | .c =>
    match dst.kind with
    | .c => src.mantissaDigits ≤ dst.mantissaDigits
    | _ => false

/-- numpy's kind ordering used by the `same_kind` casting rule
(bool < unsigned < signed < float < complex). -/
def kindOrdering : NumpyKind → Nat
  | .b => 0
  | .u => 1
  | .i => 2
  | .f => 3
  | .c => 4

/-- Model of `numpy.can_cast(src, dst, 'same_kind')`: safe casts, plus any
cast that does not lower the kind ordering. -/
def numpy_can_cast_same_kind (src dst : Dtype) : Bool :=
  numpy_can_cast src dst || kindOrdering src.kind ≤ kindOrdering dst.kind

/-! ## Python/numpy scalar values and value-based casting

`_FusionVarCUDA.const` holds the Python scalar a constant variable was
built from.  Python floats are modelled as exact rationals (the claims
under verification do not depend on binary floating-point rounding). -/

/-- A Python scalar constant: `bool`, `int`, `float` or `complex`
(numpy scalar constants carry the same payload). -/
inductive Value where
  | bool (b : Bool)
  | int (n : Int)
  | float (q : ℚ)
  | complex (re im : ℚ)
deriving DecidableEq, Repr

/-- `numpy.dtype(type(x))` for a Python primitive scalar `x` on the
64-bit linux target. -/
def Value.natDtype : Value → Dtype
  | .bool _ => .bool
  | .int _ => .int64
  | .float _ => .float64
  | .complex _ _ => .complex128

/-- The zero scalar of a dtype (`arg.dtype.type(0)` in `can_cast1`). -/
def zeroValue (d : Dtype) : Value :=
  match d.kind with
  | .b => .bool false
  | .i => .int 0
  | .u => .int 0
  | .f => .float 0
  | .c => .complex 0 0

/-- Largest finite `float32` value, as an exact rational. -/
def f32max : ℚ := 340282346638528859811704183484516925440

/-- Largest finite `float16` value, as an exact rational. -/
def f16max : ℚ := 65504

def smallestUInt (n : Int) : Option Dtype :=
  if n < 2 ^ 8 then some .uint8
  else if n < 2 ^ 16 then some .uint16
  else if n < 2 ^ 32 then some .uint32
  else if n < 2 ^ 64 then some .uint64
  else none

def smallestInt (n : Int) : Option Dtype :=
  if -(2 ^ 7) ≤ n ∧ n < 2 ^ 7 then some .int8
  else if -(2 ^ 15) ≤ n ∧ n < 2 ^ 15 then some .int16
  else if -(2 ^ 31) ≤ n ∧ n < 2 ^ 31 then some .int32
  else if -(2 ^ 63) ≤ n ∧ n < 2 ^ 63 then some .int64
  else none

def signedOfSameSize : Dtype → Dtype
  | .uint8 => .int8
  | .uint16 => .int16
  | .uint32 => .int32
  | .uint64 => .int64
  | d => d

/-- `numpy.min_scalar_type` for float magnitudes: the smallest float
dtype whose range covers the value (precision is not considered). -/
def min_scalar_float (q : ℚ) : Dtype :=
  if |q| ≤ f16max then .float16
  else if |q| ≤ f32max then .float32
  else .float64

/-- Model of value-based `numpy.can_cast(value, dst)` for scalars,
following numpy's min-scalar-type logic: a non-negative integer is
measured by the smallest unsigned type that holds it, demoted to the
same-size signed type when the value also fits there and the destination
is not unsigned; a negative integer by the smallest signed type; floats
and complexes by magnitude. -/
def numpy_can_cast_value (v : Value) (dst : Dtype) : Bool :=
  match v with
  | .bool _ => true
  | .int n =>
    if 0 ≤ n then
      match smallestUInt n with
      | none => false
      | some u =>
        let fromD :=
          if n < 2 ^ (u.ibits - 1) ∧ dst.kind ≠ NumpyKind.u then
            signedOfSameSize u
          else u
        numpy_can_cast fromD dst
    else
      match smallestInt n with
      | none => false
      | some s => numpy_can_cast s dst
  | .float q => numpy_can_cast (min_scalar_float q) dst
  | .complex re im =>
    numpy_can_cast
      (if |re| ≤ f32max ∧ |im| ≤ f32max then .complex64 else .complex128) dst

/-! ## Errors

The source raises Python exceptions; they are modelled structurally. -/

inductive FusionError where
  /-- `Exception('Shape mismatch')` from `_get_fusion_var`. -/
  | shapeMismatch
  /-- `Exception('Unsupported type ...')` from `_get_fusion_var`. -/
  | unsupportedType
  /-- `TypeError('Wrong arguments ...')`: kwargs other than `out`. -/
  | wrongArguments
  /-- `TypeError('return arrays must be of ArrayType')`. -/
  | returnArraysMustBeArrays
  /-- Python `ValueError` from `max()` on an empty sequence. -/
  | emptySequenceMax
  /-- `ValueError('non-broadcastable output operand')`. -/
  | nonBroadcastableOutput
  /-- `TypeError("output ... could not be coerced ... 'same_kind'")`. -/
  | outputCoercion (fromDtype toDtype : Dtype)
  /-- `TypeError('Invalid type cast in NAME: in_dtypes -> out_dtypes')`:
  no overload of the ufunc accepted the inputs. -/
  | invalidTypeCast (name : String) (inDtypes outDtypes : List Dtype)
  /-- `TypeError('... is not supported yet')` from `astype`. -/
  | astypeArgNotSupported (which : String)
  /-- `Exception` raised by `__bool__` / `__nonzero__` on a shadow value
  (message: cast to bool is impossible). -/
  | cantCastToBool
  /-- `ValueError('The fusion supports [...] or [:].')`. -/
  | unsupportedIndexForm
  /-- `TypeError('... takes 1 positional argument but N were given')`. -/
  | takesOnePositionalArgument (given : Nat)
  /-- `NotImplementedError('Multiple reduction is not implemented yet')`. -/
  | multipleReductionNotImplemented
  /-- A failed Python `assert` statement. -/
  | assertionError
  /-- The `raise TypeError('Type is mismatched. ...')` at the end of
  `set_reduce_op` (the raise expression itself dereferences the
  non-existent `self.raw`, so at runtime it surfaces as an
  `AttributeError`; either way the call fails). -/
  | reduceTypeMismatch
  /-- `core._AxisError('axis ... is out of bounds ...')`. -/
  | axisOutOfBounds
  /-- `NotImplementedError('Fusion for elementwise-kernel ...')`. -/
  | elementwiseKernelNotImplemented
  /-- `TypeError("Fusion function can't return ...")`. -/
  | invalidReturnValue
  /-- `TypeError('Invalid argument type ...')` from `Fusion.__call__`. -/
  | invalidArgumentType
  /-- `TypeError('Invalid constant type ...')` from `declaration`. -/
  | invalidConstantType
deriving DecidableEq, Repr

/-! ## CUDA variables (`_FusionVarCUDA`) -/

/-- `_FusionVarCUDA`: a numbered local variable of the CUDA program.
`mutable` is called `mutableFlag` here (it flips to true the first time the
variable is written as a ufunc output, via `mutate()`). -/
structure FusionVarCUDA where
  index : Nat
  dtype : Dtype
  const : Option Value := none
  mutableFlag : Bool := false
deriving DecidableEq, Repr

/-- `mutate()`. -/
def FusionVarCUDA.mutate (v : FusionVarCUDA) : FusionVarCUDA :=
  { v with mutableFlag := true }

/-- Rendering of a constant initializer, following `declaration()`:
bools render lowercase, complexes render as positional `(re, im)`
initialization, ints and floats render with `= literal`. -/
def constInit : Value → String
  | .bool b => "= " ++ (if b then "true" else "false")
  | .complex re im => "(" ++ toString re ++ ", " ++ toString im ++ ")"
  | .int n => "= " ++ toString n
  | .float q => "= " ++ toString q

/-- `_FusionVarCUDA.declaration()` (fusion.py lines 115-131): emits
`T v{i};` for a non-constant variable and `const T v{i} = literal;` for a
constant one.  Note that the source never consults `self.mutable` here. -/
def FusionVarCUDA.declaration (v : FusionVarCUDA) : String :=
  let ctype := dtype_to_ctype v.dtype
  match v.const with
  | none => ctype ++ " v" ++ toString v.index ++ ";\n"
  | some c =>
    "const " ++ ctype ++ " v" ++ toString v.index ++ " " ++ constInit c ++ ";\n"

/-- `declaration_in_param()`: the `_non_const` marker is where the
`mutable` flag actually surfaces in emitted code. -/
def FusionVarCUDA.declaration_in_param (v : FusionVarCUDA) : String :=
  (if v.mutableFlag then "_non_const " else "") ++ v.dtype.name ++ " v" ++ toString v.index

/-- `declaration_out_param()`. -/
def FusionVarCUDA.declaration_out_param (v : FusionVarCUDA) : String :=
  v.dtype.name ++ " v" ++ toString v.index

end CupyFusion

namespace CupyFusion

/-! ## Submodules (`_Submodule`) -/

/-- `_Submodule`: a typed specialization of a ufunc.  `name` and
`preamble` come from the ufunc descriptor; `in_params`/`out_params` are
`(dtype, identifier)` pairs; `op` is the operation body. -/
structure Submodule where
  name : String
  in_params : List (Dtype × String)
  out_params : List (Dtype × String)
  op : String
  preamble : String
deriving DecidableEq, Repr

/-- `self.dtypes = [dtype for dtype, _ in self.in_params + self.out_params]`. -/
def Submodule.dtypes (m : Submodule) : List Dtype :=
  (m.in_params ++ m.out_params).map Prod.fst

/-- `key() = (self.name, tuple(self.dtypes))`. -/
def Submodule.key (m : Submodule) : String × List Dtype :=
  (m.name, m.dtypes)

/-- `fcall(args)`. -/
def Submodule.fcall (m : Submodule) (args : List String) : String :=
  m.name ++ "(" ++ ", ".intercalate args ++ ");\n"

/-- `code()`: the emitted `__device__` function for this submodule
(CUDA block braces are the characters 0x7b / 0x7d). -/
def Submodule.code (m : Submodule) : String :=
  let params := ", ".intercalate
    ((m.in_params ++ m.out_params).map fun p =>
      dtype_to_ctype p.1 ++ " &" ++ p.2)
  let typedef := String.join
    ((m.in_params ++ m.out_params).map fun p =>
      "typedef " ++ dtype_to_ctype p.1 ++ " " ++ p.2 ++ "_type;\n")
  "\n        __device__ void " ++ m.name ++ "(" ++ params ++ ") \x7b\n          "
    ++ typedef ++ "\n          " ++ m.op ++ ";\n        \x7d\n        " ++ "\n"

/-! ## Operation nodes (`_FusionOp`) -/

/-- `_FusionOp`: one recorded call of a submodule on argument variables
(inputs first, then outputs). -/
structure FusionOp where
  index : Nat
  submodule : Submodule
  args : List FusionVarCUDA
deriving DecidableEq, Repr

def FusionOp.dtypes (op : FusionOp) : List Dtype :=
  op.submodule.dtypes

/-- `declaration_args()`: per-operation temporaries `v{i}_{j}`. -/
def FusionOp.declaration_args (op : FusionOp) : String :=
  " ".intercalate
    ((List.range op.dtypes.length).zip op.dtypes |>.map fun p =>
      dtype_to_ctype p.2 ++ " v" ++ toString op.index ++ "_" ++ toString p.1 ++ ";")
    ++ "\n"

/-! ## Shadow values (`_FusionVarScalar` / `_FusionVarArray`) -/

/-- A shadow value: the trace-time stand-in for a scalar
(`_FusionVarScalar`, `ndim = -1`) or an array (`_FusionVarArray`,
`ndim ≥ 0`) that records operations into the fusion history. -/
inductive FusionVar where
  | scalar (cvar : FusionVarCUDA) (is_postmap : Bool)
  | array (cvar : FusionVarCUDA) (nd : Nat) (is_postmap : Bool)
deriving DecidableEq, Repr

def FusionVar.cvar : FusionVar → FusionVarCUDA
  | .scalar v _ => v
  | .array v _ _ => v

def FusionVar.dtype (s : FusionVar) : Dtype := s.cvar.dtype

/-- `ndim`: `-1` for a scalar shadow, the rank for an array shadow. -/
def FusionVar.ndim : FusionVar → Int
  | .scalar _ _ => -1
  | .array _ nd _ => nd

def FusionVar.isPostmap : FusionVar → Bool
  | .scalar _ p => p
  | .array _ _ p => p

def FusionVar.isArrayShadow : FusionVar → Bool
  | .scalar _ _ => false
  | .array _ _ _ => true

def FusionVar.isScalarShadow : FusionVar → Bool
  | .scalar _ _ => true
  | .array _ _ _ => false

/-- `__bool__` / `__nonzero__` (fusion.py lines 304-308): coercing any
shadow value to a Python boolean always raises. -/
def FusionVar.toBool (_ : FusionVar) : Except FusionError Bool :=
  .error .cantCastToBool

/-! ## The fusion history (`_FusionHistory`) -/

/-- One entry of a reduction descriptor's overload table
(`reduction.***._raws._ops`): input dtypes, output dtypes and the routine
4-tuple, of which the embedding keeps the combine body, the post-map cast
body and the optional reduce ctype. -/
structure ReduceEntry where
  in_dtypes : List Dtype
  out_dtypes : List Dtype
  reduce_code : String
  postmap_cast_code : String
  reduce_ctype : Option String
deriving DecidableEq, Repr

/-- The `axis` keyword of a reduction: a tuple/list of ints or a single
int (`axis=None` is dropped by the wrapper before use, so it is the
`Option.none` of the surrounding `Option ReduceAxis`). -/
inductive ReduceAxis where
  | tuple (axes : List Int)
  | single (axis : Int)
deriving DecidableEq, Repr

/-- The kwargs recorded by `set_reduce_op` (only `axis` and `out` with
non-`None` values survive the wrapper's filter). -/
structure ReduceKwargs where
  axis : Option ReduceAxis := none
  out : Option FusionVar := none
deriving DecidableEq, Repr

/-- `_FusionHistory`: the per-trace state.  `ndim` is assigned by
`get_fusion` before the user function runs and updated by the reduction
wrapper; it is kept as a plain field here. -/
structure FusionHistory where
  preamble_set : List String := []
  submodules : List ((String × List Dtype) × Submodule) := []
  count : Nat := 0
  op_list : List FusionOp := []
  param_list : List FusionVarCUDA := []
  local_list : List FusionVarCUDA := []
  reduce_op : Option ReduceEntry := none
  reduce_identity : Option Value := none
  reduce_kwargs : Option ReduceKwargs := none
  postmap_op_list : List FusionOp := []
  premap_ret : Option FusionVarCUDA := none
  postmap_param : Option FusionVarCUDA := none
  postmap_local_list : List FusionVarCUDA := []
  ndim : Int := 0
deriving DecidableEq, Repr

/-- `_FusionHistory.__init__`. -/
def initialHistory : FusionHistory := {}

def FusionHistory.has_reduction (h : FusionHistory) : Bool :=
  h.reduce_op.isSome

/-- `_fresh_index()`: return and post-increment `count`. -/
def FusionHistory.fresh_index (h : FusionHistory) : Nat × FusionHistory :=
  (h.count, { h with count := h.count + 1 })

/-- `_fresh_premap_param(dtype, const)`. -/
def FusionHistory.fresh_premap_param (h : FusionHistory) (dtype : Dtype)
    (const : Option Value := none) : FusionVarCUDA × FusionHistory :=
  let (index, h₁) := h.fresh_index
  let var : FusionVarCUDA := { index := index, dtype := dtype, const := const }
  (var, { h₁ with param_list := h₁.param_list ++ [var] })

/-- `_fresh_postmap_param(dtype, const)`; the source asserts that
`postmap_param` is still unset. -/
def FusionHistory.fresh_postmap_param (h : FusionHistory) (dtype : Dtype)
    (const : Option Value := none) :
    Except FusionError (FusionVarCUDA × FusionHistory) :=
  if h.postmap_param.isSome then .error .assertionError
  else
    let (index, h₁) := h.fresh_index
    let var : FusionVarCUDA := { index := index, dtype := dtype, const := const }
    .ok (var, { h₁ with postmap_param := some var })

/-- `_fresh_premap_local(dtype, const)`. -/
def FusionHistory.fresh_premap_local (h : FusionHistory) (dtype : Dtype)
    (const : Option Value := none) : FusionVarCUDA × FusionHistory :=
  let (index, h₁) := h.fresh_index
  let var : FusionVarCUDA := { index := index, dtype := dtype, const := const }
  (var, { h₁ with local_list := h₁.local_list ++ [var] })

/-- `_fresh_postmap_local(dtype, const)`. -/
def FusionHistory.fresh_postmap_local (h : FusionHistory) (dtype : Dtype)
    (const : Option Value := none) : FusionVarCUDA × FusionHistory :=
  let (index, h₁) := h.fresh_index
  let var : FusionVarCUDA := { index := index, dtype := dtype, const := const }
  (var, { h₁ with postmap_local_list := h₁.postmap_local_list ++ [var] })

/-- `_fresh_local`: route to the active phase's local list. -/
def FusionHistory.fresh_local (h : FusionHistory) (dtype : Dtype)
    (const : Option Value := none) : FusionVarCUDA × FusionHistory :=
  if h.has_reduction then h.fresh_postmap_local dtype const
  else h.fresh_premap_local dtype const

/-- `out_var._var.mutate()`: Python mutates the variable object in place;
the embedding updates every stored copy of the variable with that index
(indices are unique, so this is the same variable). -/
def FusionHistory.mutateVar (h : FusionHistory) (index : Nat) : FusionHistory :=
  let touch := fun (v : FusionVarCUDA) => if v.index = index then v.mutate else v
  { h with
    param_list := h.param_list.map touch
    local_list := h.local_list.map touch
    postmap_local_list := h.postmap_local_list.map touch
    postmap_param := h.postmap_param.map touch }

/-- Python `set.add` on an insertion-ordered model of `preamble_set`. -/
def setAdd (l : List String) (s : String) : List String :=
  if s ∈ l then l else l ++ [s]

/-- `self._add_preamble(preamble)`. -/
def FusionHistory.add_preamble (h : FusionHistory) (p : String) : FusionHistory :=
  { h with preamble_set := setAdd h.preamble_set p }

/-- Python `dict` assignment `d[k] = v` on an insertion-ordered
association list: an existing key keeps its position and gets the new
value; a new key is appended. -/
def dictInsert {K V : Type} [DecidableEq K] :
    List (K × V) → K → V → List (K × V)
  | [], k, v => [(k, v)]
  | (k', v') :: t, k, v =>
    if k' = k then (k, v) :: t else (k', v') :: dictInsert t k v

/-- `_add_premap_op(submodule, args)`. -/
def FusionHistory.add_premap_op (h : FusionHistory) (subm : Submodule)
    (args : List FusionVarCUDA) : FusionHistory × FusionOp :=
  let op : FusionOp := { index := h.op_list.length, submodule := subm, args := args }
  let h₁ := { h with
    submodules := dictInsert h.submodules subm.key subm
    op_list := h.op_list ++ [op] }
  (h₁.add_preamble subm.preamble, op)

/-- `_add_postmap_op(submodule, args)`. -/
def FusionHistory.add_postmap_op (h : FusionHistory) (subm : Submodule)
    (args : List FusionVarCUDA) : FusionHistory × FusionOp :=
  let op : FusionOp :=
    { index := h.postmap_op_list.length, submodule := subm, args := args }
  let h₁ := { h with
    submodules := dictInsert h.submodules subm.key subm
    postmap_op_list := h.postmap_op_list ++ [op] }
  (h₁.add_preamble subm.preamble, op)

/-- `add_op`: route to the active phase's op list. -/
def FusionHistory.add_op (h : FusionHistory) (subm : Submodule)
    (args : List FusionVarCUDA) : FusionHistory × FusionOp :=
  if h.has_reduction then h.add_postmap_op subm args
  else h.add_premap_op subm args

/-- `_emit_submodules_code`: the preambles followed by one `code()` block
per entry of the (deduplicated) submodule dict. -/
def FusionHistory.emit_submodules_code (h : FusionHistory) : String :=
  String.join h.preamble_set
    ++ "\n".intercalate (h.submodules.map fun kv => kv.2.code)

end CupyFusion

namespace CupyFusion

/-! ## Argument lifting (`_get_fusion_var`) -/

/-- An argument of an intercepted ufunc call: a shadow value, or a Python
primitive / numpy scalar (whose dtype is determined by its Python type,
`numpy.dtype(type(arg))`). -/
inductive UfuncArg where
  | fvar (v : FusionVar)
  | prim (dtype : Dtype) (val : Value)
deriving DecidableEq, Repr

/-- `_get_fusion_var(arg)` (fusion.py lines 512-531): a shadow is passed
through when its phase matches the history's phase (otherwise the source
raises its shape-mismatch error); a primitive scalar becomes a fresh
constant local wrapped as a scalar shadow of the current phase. -/
def FusionHistory.get_fusion_var (h : FusionHistory) (arg : UfuncArg) :
    Except FusionError (FusionHistory × FusionVar) :=
  match arg with
  | .fvar v =>
    if v.isPostmap = h.has_reduction then .ok (h, v)
    else .error .shapeMismatch
  | .prim dtype val =>
    let (cv, h₁) := h.fresh_local dtype (some val)
    .ok (h₁, .scalar cv h₁.has_reduction)

/-! ## Ufunc descriptors and casting-rule selection -/

/-- A ufunc descriptor as consumed by `call_ufunc`: `name`, `nin`,
`nout`, `preamble` and the ordered `ops` overload table of
`(in_dtypes, out_dtypes, body)` entries. -/
structure Ufunc where
  name : String
  nin : Nat
  nout : Nat
  preamble : String := ""
  ops : List (List Dtype × List Dtype × String)
deriving DecidableEq, Repr

/-- `_should_use_min_scalar(in_args)` (fusion.py lines 539-551): the fold
with sentinels `max_array_kind = -2`, `max_scalar_kind = -1`. -/
def should_use_min_scalar (in_args : List FusionVar) : Bool :=
  let mk := in_args.foldl
    (fun (mk : Int × Int) arg =>
      let kind := kind_score arg.dtype.kind
      if arg.isArrayShadow then (max mk.1 kind, mk.2)
      else (mk.1, max mk.2 kind))
    (-2, -1)
  mk.2 ≠ -1 && mk.1 ≥ mk.2

/-- `can_cast1(args, in_dtypes)` (fusion.py lines 553-572): the
min-scalar rule.  Array inputs are tested at dtype level; a scalar input
is tested value-based against its known constant, or against zero of its
dtype when no constant is known (the source notes this zero fallback is
not a safe approximation).  Positions beyond either list raise in Python
(`IndexError`); they are `false` here and are excluded by the arity
hypotheses of the theorems below. -/
def can_cast1 (nin : Nat) (args : List FusionVar) (in_dtypes : List Dtype) :
    Bool :=
  (List.range nin).all fun i =>
    match args.get? i, in_dtypes.get? i with
    | some arg, some t =>
      if arg.isArrayShadow then numpy_can_cast arg.dtype t
      else
        numpy_can_cast_value (arg.cvar.const.getD (zeroValue arg.dtype)) t
    | _, _ => false

/-- `can_cast2(args, in_dtypes)` (fusion.py lines 574-578): the uniform
dtype-level rule. -/
def can_cast2 (nin : Nat) (args : List FusionVar) (in_dtypes : List Dtype) :
    Bool :=
  (List.range nin).all fun i =>
    match args.get? i, in_dtypes.get? i with
    | some arg, some t => numpy_can_cast arg.dtype t
    | _, _ => false

/-- `make_fusion_var(var, ndim)`. -/
def make_fusion_var (h : FusionHistory) (cv : FusionVarCUDA) (ndim : Int) :
    FusionVar :=
  if ndim = -1 then .scalar cv h.has_reduction
  else .array cv ndim.toNat h.has_reduction

/-! ## `call_ufunc` -/

/-- The Python `max(v.ndim for v in vars)`; every shadow's `ndim` is at
least `-1`, so the fold from `-1` is the maximum of a non-empty list. -/
def maxNdim (vars : List FusionVar) : Int :=
  vars.foldl (fun a v => max a v.ndim) (-1)

/-- The preliminary stages of `call_ufunc` (fusion.py lines 586-610):
lift the arguments, collect the `out` keyword, reject other kwargs, check
the `nin ≤ len ≤ nin + nout` assertion, split inputs from outputs, require
array outputs, and run the broadcast checks.  Returns the updated history,
`in_vars`, `out_vars` and the computed `ndim`. -/
def call_ufunc_prepare (h : FusionHistory) (u : Ufunc) (args : List UfuncArg)
    (out : Option UfuncArg) (otherKwargs : List String) :
    Except FusionError (FusionHistory × List FusionVar × List FusionVar × Int) := do
  let (h₁, var_list) ← args.foldlM
    (fun (acc : FusionHistory × List FusionVar) arg => do
      let (h', v) ← acc.1.get_fusion_var arg
      pure (h', acc.2 ++ [v]))
    (h, ([] : List FusionVar))
  let (h₂, var_list) ←
    match out with
    | none => pure (h₁, var_list)
    | some o => do
      let (h₂, ov) ← h₁.get_fusion_var o
      pure (h₂, var_list ++ [ov])
  if otherKwargs ≠ [] then throw .wrongArguments
  if ¬ (u.nin ≤ var_list.length ∧ var_list.length ≤ u.nin + u.nout) then
    throw .assertionError
  let in_vars := var_list.take u.nin
  let out_vars := var_list.drop u.nin
  if ¬ out_vars.all FusionVar.isArrayShadow then
    throw .returnArraysMustBeArrays
  if in_vars.isEmpty then throw .emptySequenceMax
  let ndim := maxNdim var_list
  match out_vars.map FusionVar.ndim with
  | [] => pure (h₂, in_vars, out_vars, ndim)
  | n :: t =>
    if t.foldl min n < ndim then throw .nonBroadcastableOutput
    else pure (h₂, in_vars, out_vars, ndim)

/-- The output-materialization loop of `call_ufunc` (fusion.py lines
615-633), for the overload entry that passed the cast test: position `i`
reuses the user-supplied output when present (requiring `same_kind`
castability of the resolved output dtype into it) and otherwise allocates
a fresh local wrapped at rank `ndim`; every produced output variable is
marked mutable. -/
def commit_outputs (out_dtypes : List Dtype) (ndim : Int) :
    FusionHistory → List Nat → List FusionVar → List FusionVar →
    Except FusionError (FusionHistory × List FusionVar × List FusionVar)
  | h, [], out_vars, ret => .ok (h, out_vars, ret)
  | h, i :: rest, out_vars, ret =>
    match out_dtypes.get? i with
    | none => .error .assertionError
    | some dt =>
      match out_vars.get? i with
      | some ov =>
        if numpy_can_cast_same_kind dt ov.dtype then
          commit_outputs out_dtypes ndim (h.mutateVar ov.cvar.index) rest
            out_vars (ret ++ [ov])
        else .error (.outputCoercion dt ov.dtype)
      | none =>
        let (cv, h₁) := h.fresh_local dt none
        let ov := make_fusion_var h₁ cv ndim
        commit_outputs out_dtypes ndim (h₁.mutateVar cv.index) rest
          (out_vars ++ [ov]) (ret ++ [ov])

/-- `in_params = [(in_dtypes[i], 'in{i}') for i, _ in enumerate(in_vars)]`
(and the same for outputs); a position beyond `dtypes` raises in Python. -/
def build_params (dtypes : List Dtype) (vars : List FusionVar)
    (prefixName : String) : Except FusionError (List (Dtype × String)) :=
  (List.range vars.length).mapM fun i =>
    match dtypes.get? i with
    | some dt => .ok (dt, prefixName ++ toString i)
    | none => .error .assertionError

/-- The overload-resolution loop of `call_ufunc` (fusion.py lines
610-644): iterate the `ops` table in declared order, test input
castability with the selected rule, commit on the first entry that
passes; when no entry passes, fail listing the input dtypes and the
requested output dtypes. -/
def resolve_ops (u : Ufunc) (useMinScalar : Bool) (in_vars : List FusionVar)
    (ndim : Int) (h : FusionHistory) (out_vars : List FusionVar) :
    List (List Dtype × List Dtype × String) →
    Except FusionError (FusionHistory × List FusionVar)
  | [] =>
    .error (.invalidTypeCast u.name (in_vars.map FusionVar.dtype)
      (out_vars.map FusionVar.dtype))
  | (in_dtypes, out_dtypes, op) :: rest =>
    if (if useMinScalar then can_cast1 u.nin in_vars in_dtypes
        else can_cast2 u.nin in_vars in_dtypes) then do
      let (h₁, out_vars', ret) ←
        commit_outputs out_dtypes ndim h (List.range u.nout) out_vars []
      let in_params ← build_params in_dtypes in_vars "in"
      let out_params ← build_params out_dtypes out_vars' "out"
      let subm : Submodule :=
        { name := u.name, in_params := in_params, out_params := out_params
          op := op, preamble := u.preamble }
      .ok ((h₁.add_op subm ((in_vars ++ out_vars').map FusionVar.cvar)).1,
        ret)
    else
      resolve_ops u useMinScalar in_vars ndim h out_vars rest

/-- `call_ufunc(ufunc, args, kwargs)` (fusion.py lines 533-644).  The
returned list is the `ret` list of produced output shadows (the source
returns `ret[0]` when it is a singleton and a tuple otherwise). -/
def FusionHistory.call_ufunc (h : FusionHistory) (u : Ufunc)
    (args : List UfuncArg) (out : Option UfuncArg := none)
    (otherKwargs : List String := []) :
    Except FusionError (FusionHistory × List FusionVar) := do
  let (h₂, in_vars, out_vars, ndim) ←
    call_ufunc_prepare h u args out otherKwargs
  resolve_ops u (should_use_min_scalar in_vars) in_vars ndim h₂ out_vars u.ops

/-! ## `astype` (fusion.py lines 320-330 and 961-978) -/

/-- `_dtype_list`: the dtypes denoted by the characters of
`'?bhilqBHILQefdFD'` on the 64-bit linux target (`l`/`q` and `L`/`Q`
coincide, so `int64` and `uint64` each appear twice, as in the source's
list of rules). -/
def astype_dtype_list : List Dtype :=
  [.bool, .int8, .int16, .int32, .int64, .int64,
   .uint8, .uint16, .uint32, .uint64, .uint64,
   .float16, .float32, .float64, .complex64, .complex128]

/-- `_create_astype_ufunc(dtype)`: the generated unary cast ufunc with
one `cast_from->dtype` rule per entry of `_dtype_list`. -/
def create_astype_ufunc (dtype : Dtype) : Ufunc :=
  { name := "astype_" ++ dtype.name
    nin := 1
    nout := 1
    preamble := ""
    ops := astype_dtype_list.map fun src =>
      ([src], [dtype],
        "out0 = static_cast< " ++ dtype_to_ctype dtype ++ " >(in0)") }

/-- `_FusionVarScalar.astype(dtype, order, casting, subok, copy)`
(fusion.py lines 320-330, inherited by arrays): non-`None`
`order`/`casting`/`subok` are rejected; with `copy=False` and an equal
dtype the very same shadow is returned and the history is untouched;
otherwise the generated cast ufunc is invoked through `call_ufunc`. -/
def FusionHistory.astype (h : FusionHistory) (s : FusionVar) (dtype : Dtype)
    (order casting subok : Option String := none) (copy : Bool := true) :
    Except FusionError (FusionHistory × FusionVar) := do
  if order.isSome then throw (.astypeArgNotSupported "order")
  if casting.isSome then throw (.astypeArgNotSupported "casting")
  if subok.isSome then throw (.astypeArgNotSupported "subok")
  if ¬ copy ∧ s.dtype = dtype then
    pure (h, s)
  else
    match ← h.call_ufunc (create_astype_ufunc dtype) [.fvar s] with
    | (h', [r]) => pure (h', r)
    | _ => throw .assertionError

end CupyFusion

namespace CupyFusion

/-! ## Reduction dispatch (`set_reduce_op` and `_reduction_wrapper`) -/

/-- A reduction descriptor (`fusion_op` of `_reduction_wrapper`): name,
identity, preamble and the ordered overload table. -/
structure ReductionUfunc where
  name : String
  identity : Value
  preamble : String := ""
  ops : List ReduceEntry
deriving DecidableEq, Repr

/-- The overload scan of `set_reduce_op` (fusion.py lines 496-507): the
first entry whose single input dtype accepts the argument's dtype wins;
it is recorded together with the identity and kwargs, the reduction
preamble is added, and the post-map parameter is allocated at the entry's
output dtype.  An entry whose dtype lists are not singletons would fail
Python's tuple unpacking. -/
def set_reduce_op_loop (raw : ReductionUfunc) (arg : FusionVar)
    (kwargs : ReduceKwargs) (h : FusionHistory) :
    List ReduceEntry → Except FusionError (FusionHistory × FusionVarCUDA)
  | [] => .error .reduceTypeMismatch
  | entry :: rest =>
    match entry.in_dtypes, entry.out_dtypes with
    | [input_type], [output_type] =>
      if numpy_can_cast arg.dtype input_type then do
        let (h₁, fv) ← h.get_fusion_var (.fvar arg)
        let h₂ := { h₁ with
          premap_ret := some fv.cvar
          reduce_op := some entry
          reduce_identity := some raw.identity
          reduce_kwargs := some kwargs }
        let h₃ := h₂.add_preamble raw.preamble
        let (var, h₄) ← h₃.fresh_postmap_param output_type
        pure (h₄, var)
      else set_reduce_op_loop raw arg kwargs h rest
    | _, _ => .error .assertionError

/-- `set_reduce_op(raw, arg, kwargs)` (fusion.py lines 494-507); the
source opens with `assert self.reduce_op is None`. -/
def FusionHistory.set_reduce_op (h : FusionHistory) (raw : ReductionUfunc)
    (arg : FusionVar) (kwargs : ReduceKwargs) :
    Except FusionError (FusionHistory × FusionVarCUDA) :=
  if h.reduce_op.isSome then .error .assertionError
  else set_reduce_op_loop raw arg kwargs h raw.ops

/-- The traced-call body produced by `_reduction_wrapper(fusion_op)`
(fusion.py lines 919-955).  `axis`/`out` model the surviving kwargs
(`None` values are filtered out before this point, hence `Option`). -/
def reduction_call (h : FusionHistory) (fusion_op : ReductionUfunc)
    (args : List FusionVar) (axis : Option ReduceAxis := none)
    (out : Option FusionVar := none) :
    Except FusionError (FusionHistory × FusionVar) :=
  match args with
  | [arg] =>
    let kwargs : ReduceKwargs := { axis := axis, out := out }
    if arg.isPostmap then .error .multipleReductionNotImplemented
    else do
      let (h₁, var) ← h.set_reduce_op fusion_op arg kwargs
      let src_ndim : Int := max 0 arg.ndim
      let ndim : Int :=
        match axis with
        | some (.tuple axes) => src_ndim - axes.length
        | some (.single _) => src_ndim - 1
        | none => 0
      if ndim < 0 then throw .axisOutOfBounds
      else
        let h₂ := { h₁ with ndim := ndim }
        if ndim ≥ 1 then pure (h₂, .array var ndim.toNat true)
        else pure (h₂, .scalar var true)
  | _ => .error (.takesOnePositionalArgument args.length)

/-! ## The fusion facade (`Fusion.__call__`, fusion.py lines 846-873) -/

/-- The memoization key: one `(dtype, ndim)` pair per argument (`ndim` is
`-1` for scalars). -/
abbrev ParamsInfo := List (Dtype × Int)

/-- What a call of a fused function does, besides updating the memo. -/
inductive CallOutcome (K : Type) where
  /-- A trace is already active on this thread: run the plain Python
  function so inner ufuncs are themselves intercepted. -/
  | bypassInnerTrace
  /-- The arguments live on the host: run the plain Python function. -/
  | bypassHostArrays
  /-- An exception propagated to the caller. -/
  | raised (e : FusionError)
  /-- The (cached or freshly compiled) kernel is launched. -/
  | launch (k : K)
deriving DecidableEq, Repr

/-- The post-state of `Fusion.__call__`: the signature memo, whether the
thread-local history slot is still occupied, and the outcome. -/
structure CallResult (K : Type) where
  memo : List (ParamsInfo × K)
  historyInstalled : Bool
  outcome : CallOutcome K
deriving DecidableEq, Repr

/-- `Fusion.__call__(*args)`: bypass when a trace is already installed or
when the arguments are not cupy data; reject unacceptable argument types;
on a memo miss, install a fresh history in the thread-local slot, trace
and compile (modelled by the `trace` argument, since the traced function
is arbitrary Python), store the kernel on success, and delete the slot in
a `finally` block on both the normal and the exceptional path. -/
def fusion_call {K : Type} (historyInstalled : Bool) (moduleIsCupy : Bool)
    (argsAcceptable : Bool) (memo : List (ParamsInfo × K))
    (params_info : ParamsInfo) (trace : Except FusionError K) :
    CallResult K :=
  if historyInstalled then ⟨memo, historyInstalled, .bypassInnerTrace⟩
  else if ¬ moduleIsCupy then ⟨memo, false, .bypassHostArrays⟩
  else if ¬ argsAcceptable then ⟨memo, false, .raised .invalidArgumentType⟩
  else
    match memo.lookup params_info with
    | some k => ⟨memo, false, .launch k⟩
    | none =>
      match trace with
      | .ok k => ⟨memo ++ [(params_info, k)], false, .launch k⟩
      | .error e => ⟨memo, false, .raised e⟩

end CupyFusion

namespace CupyFusion

/-! ## Decidability of `Except` results -/

instance {ε α : Type} [DecidableEq ε] [DecidableEq α] :
    DecidableEq (Except ε α) := fun x y =>
  match x, y with
  | .ok a, .ok b =>
    if h : a = b then .isTrue (by rw [h])
    else .isFalse (by intro hh; cases hh; exact h rfl)
  | .error a, .error b =>
    if h : a = b then .isTrue (by rw [h])
    else .isFalse (by intro hh; cases hh; exact h rfl)
  | .ok _, .error _ => .isFalse (by intro hh; cases hh)
  | .error _, .ok _ => .isFalse (by intro hh; cases hh)

/-! ## Claim-side specification definitions

These definitions restate conditions the way the spec phrases them; the
claim theorems relate them to the source-translated functions above. -/

/-- The kind scores of the array inputs of a ufunc call. -/
def arrayKinds (in_vars : List FusionVar) : List Int :=
  (in_vars.filter FusionVar.isArrayShadow).map fun a => kind_score a.dtype.kind

/-- The kind scores of the scalar inputs of a ufunc call. -/
def scalarKinds (in_vars : List FusionVar) : List Int :=
  (in_vars.filter FusionVar.isScalarShadow).map fun a => kind_score a.dtype.kind

/-- The spec's condition for the min-scalar rule: at least one input is a
scalar shadow, and the maximum kind score over array inputs is at least
the maximum kind score over scalar inputs (phrased pointwise: every
scalar kind is dominated by some array kind). -/
def minScalarRuleCondition (in_vars : List FusionVar) : Prop :=
  (∃ a ∈ in_vars, a.isScalarShadow = true)
  ∧ ∀ k ∈ scalarKinds in_vars, ∃ m ∈ arrayKinds in_vars, k ≤ m

/-- The spec's description of how one input is tested under the
min-scalar rule against an overload's input dtype: a scalar whose
variable carries a known constant is tested value-based against that
concrete value, a scalar with no known constant against zero of its
dtype, and an array input at dtype level. -/
def minScalarElementTest (a : FusionVar) (t : Dtype) : Prop :=
  (a.isArrayShadow = true → numpy_can_cast a.dtype t = true)
  ∧ (∀ c, a.isScalarShadow = true → a.cvar.const = some c →
      numpy_can_cast_value c t = true)
  ∧ (a.isScalarShadow = true → a.cvar.const = none →
      numpy_can_cast_value (zeroValue a.dtype) t = true)

/-- Whether an overload entry's input dtypes pass the given casting rule
(`can_cast1` under the min-scalar rule, `can_cast2` otherwise). -/
def entryPasses (useMinScalar : Bool) (nin : Nat) (in_vars : List FusionVar)
    (entry : List Dtype × List Dtype × String) : Bool :=
  if useMinScalar then can_cast1 nin in_vars entry.1
  else can_cast2 nin in_vars entry.1

/-- The overload entry `call_ufunc` selects: the first whose input
dtypes pass the selected casting rule. -/
def opPasses (u : Ufunc) (in_vars : List FusionVar)
    (entry : List Dtype × List Dtype × String) : Bool :=
  entryPasses (should_use_min_scalar in_vars) u.nin in_vars entry

/-- The claim's post-reduction rank formula: a tuple/list axis reduces
the (clamped) source rank by its length, a scalar axis by one, and an
absent axis reduces to rank zero. -/
def reducedRank (src_ndim : Int) (axis : Option ReduceAxis) : Int :=
  match axis with
  | some (.tuple axes) => src_ndim - axes.length
  | some (.single _) => src_ndim - 1
  | none => 0

/-! ## Allocation steps (for the index-density invariant)

Every CUDA variable the tracer creates is allocated by exactly one of
`_fresh_premap_param`, `_fresh_postmap_param`, `_fresh_premap_local` and
`_fresh_postmap_local` (each drawing its index from `_fresh_index`), and
the only post-allocation mutation of a variable is `mutate()`.  A trace
is therefore, as far as variables are concerned, some interleaving of
these steps. -/

inductive AllocStep where
  | premapParam (dtype : Dtype) (const : Option Value)
  | postmapParam (dtype : Dtype) (const : Option Value)
  | premapLocal (dtype : Dtype) (const : Option Value)
  | postmapLocal (dtype : Dtype) (const : Option Value)
  | mutate (index : Nat)
deriving DecidableEq, Repr

def applyAlloc (h : FusionHistory) : AllocStep → Option FusionHistory
  | .premapParam d c => some (h.fresh_premap_param d c).2
  | .postmapParam d c => ((h.fresh_postmap_param d c).map Prod.snd).toOption
  | .premapLocal d c => some (h.fresh_premap_local d c).2
  | .postmapLocal d c => some (h.fresh_postmap_local d c).2
  | .mutate i => some (h.mutateVar i)

def applyAllocs (h : FusionHistory) : List AllocStep → Option FusionHistory
  | [] => some h
  | s :: rest => (applyAlloc h s).bind fun h' => applyAllocs h' rest

/-- All CUDA variables a history holds: parameters, pre-map locals,
post-map locals and the post-map parameter. -/
def allocatedVars (h : FusionHistory) : List FusionVarCUDA :=
  h.param_list ++ h.local_list ++ h.postmap_local_list
    ++ h.postmap_param.toList

/-- The indices of all allocated variables, as a multiset (each index
with its multiplicity). -/
def allocatedIndices (h : FusionHistory) : Multiset Nat :=
  ↑((allocatedVars h).map FusionVarCUDA.index)

/-! ## Sequences of `add_op` calls (for submodule deduplication) -/

def applyAddOps (h : FusionHistory) :
    List (Submodule × List FusionVarCUDA) → FusionHistory
  | [] => h
  | (subm, args) :: rest => applyAddOps (h.add_op subm args).1 rest

def submoduleKeys (h : FusionHistory) : List (String × List Dtype) :=
  h.submodules.map Prod.fst

/-! ## Example fixtures

Concrete descriptors and histories used by witness and counterexample
theorems; shaped after the cupy `add` and `sum` descriptors and the
spec's scenarios. -/

/-- An `add`-like ufunc descriptor with the int32, int64 and float64
overloads in priority order. -/
def exAddUfunc : Ufunc :=
  { name := "add", nin := 2, nout := 1
    ops := [([.int32, .int32], [.int32], "out0 = in0 + in1"),
            ([.int64, .int64], [.int64], "out0 = in0 + in1"),
            ([.float64, .float64], [.float64], "out0 = in0 + in1")] }

/-- A ufunc whose single overload accepts only booleans. -/
def exBoolOnlyUfunc : Ufunc :=
  { name := "boolonly", nin := 1, nout := 1
    ops := [([.bool], [.bool], "out0 = in0")] }

/-- A `sum`-like reduction descriptor with a single int64 overload. -/
def exSumOp : ReductionUfunc :=
  { name := "sum", identity := .int 0
    ops := [{ in_dtypes := [.int64], out_dtypes := [.int64]
              reduce_code := "a + b", postmap_cast_code := "out0 = a"
              reduce_ctype := none }] }

/-- A history holding one pre-map parameter of dtype int64. -/
def exHistory : FusionHistory := (initialHistory.fresh_premap_param .int64).2

/-- The rank-1 int64 array shadow wrapping that parameter. -/
def exArrayVar : FusionVar :=
  .array (initialHistory.fresh_premap_param .int64).1 1 false

/-- A history holding one pre-map parameter of dtype int32. -/
def exHistory32 : FusionHistory := (initialHistory.fresh_premap_param .int32).2

/-- A rank-1 int32 array shadow (the pre-map parameter of `exHistory32`). -/
def exArrayVar32 : FusionVar :=
  .array (initialHistory.fresh_premap_param .int32).1 1 false

/-- The history state after one successful reduction call on
`exHistory` (used to exhibit the behaviour of a second reduction). -/
def exAfterFirstReduction : FusionHistory :=
  match reduction_call exHistory exSumOp [exArrayVar] with
  | .ok (h, _) => h
  | .error _ => initialHistory

/-- A constant int32 variable that has been marked mutable. -/
def mutatedConstVar : FusionVarCUDA :=
  { index := 0, dtype := .int32, const := some (.int 5), mutableFlag := true }

/-- The result of recording the `sum` reduction on `exArrayVar` with the
out-of-bounds axis tuple `(0, 1)` (`set_reduce_op` itself succeeds; the
axis arithmetic happens afterwards, in the wrapper). -/
def exSroResult : Except FusionError (FusionHistory × FusionVarCUDA) :=
  exHistory.set_reduce_op exSumOp exArrayVar
    { axis := some (.tuple [0, 1]), out := none }

def exSroH : FusionHistory :=
  match exSroResult with
  | .ok p => p.1
  | .error _ => initialHistory

def exSroV : FusionVarCUDA :=
  match exSroResult with
  | .ok p => p.2
  | .error _ => { index := 0, dtype := .int64 }

/-- The density invariant of claim C7: the indices of all allocated
variables are exactly `0, 1, ..., count - 1`, each used by exactly one
variable (multiset equality with `range count`). -/
def IndicesDense (h : FusionHistory) : Prop :=
  allocatedIndices h = Multiset.range h.count

/-- A sample interleaving of all four allocators and a mutation. -/
def exAllocSteps : List AllocStep :=
  [.premapParam .int64 none, .premapLocal .float32 none,
   .postmapParam .float64 none, .mutate 1, .postmapLocal .bool none,
   .premapParam .int32 (some (.int 7))]

/-- A sample int32 `add` submodule. -/
def exSubmAdd : Submodule :=
  { name := "add"
    in_params := [(.int32, "in0"), (.int32, "in1")]
    out_params := [(.int32, "out0")]
    op := "out0 = in0 + in1"
    preamble := "" }

/-- A sample float64 `sqrt` submodule. -/
def exSubmSqrt : Submodule :=
  { name := "sqrt"
    in_params := [(.float64, "in0")]
    out_params := [(.float64, "out0")]
    op := "out0 = sqrt(in0)"
    preamble := "" }

/-- The constant scalar shadow that lifting the Python literal `1` into
`exHistory32` produces (a fresh int64 constant local at index 1). -/
def exScalarOne : FusionVar :=
  .scalar { index := 1, dtype := .int64, const := some (.int 1) } false

/-- The history `call_ufunc` reaches after lifting the arguments
`(exArrayVar32, 1)` in `exHistory32`: the literal has become a constant
local. -/
def exPrepH : FusionHistory :=
  { count := 2
    param_list := [{ index := 0, dtype := .int32 }]
    local_list := [{ index := 1, dtype := .int64, const := some (.int 1) }] }

end CupyFusion

namespace CupyFusion

/-! # Theorems

General helper lemmas about the `Except` monad and the history, then one
theorem (with witness or counterexample) per claim. -/

@[simp] theorem except_bind_ok {ε α β : Type} (a : α)
    (f : α → Except ε β) : (Except.ok a >>= f) = f a := rfl

@[simp] theorem except_bind_error {ε α β : Type} (e : ε)
    (f : α → Except ε β) :
    ((Except.error e : Except ε α) >>= f) = Except.error e := rfl

@[simp] theorem except_pure_eq_ok {ε α : Type} (a : α) :
    (pure a : Except ε α) = Except.ok a := rfl

@[simp] theorem except_throw_eq_error {ε α : Type} (e : ε) :
    (throw e : Except ε α) = Except.error e := rfl

/-! ## Claim C9 — boolean coercion of shadows always fails -/

/-- Claim C9: for every shadow value (scalar or array), coercing it to a
boolean fails, for all dtypes and ranks: `__bool__`/`__nonzero__`
unconditionally raise (the source raises a plain `Exception`, modelled
as the `cantCastToBool` error). -/
theorem C9_bool_coercion_always_fails (s : FusionVar) :
    s.toBool = .error .cantCastToBool := rfl

/-! ## Claim C4 — `declaration()` and the mutable flag (corrected)

The claim says a constant variable is declared `const` only while its
mutable flag is unset.  In the source, `declaration()` never consults
`self.mutable`: a variable carrying a constant is declared `const` even
after `mutate()`.  (The mutable flag instead drives the `_non_const`
marker of `declaration_in_param()`.) -/

/-- Claim C4 counterexample: a variable carrying the constant `5` whose
mutable flag has been set is nevertheless declared `const`. -/
theorem C4_counterexample :
    mutatedConstVar.mutableFlag = true
      ∧ mutatedConstVar.const = some (.int 5)
      ∧ mutatedConstVar.declaration = "const int v0 = 5;\n" :=
  ⟨rfl, rfl, rfl⟩

/-- Claim C4 (amended): `declaration()` emits a `const` declaration
exactly when the variable carries a constant literal, independently of
the mutable flag: flipping the flag never changes the declaration, a
constant variable is always declared `const ...`, and a non-constant
variable never is. -/
theorem C4_declaration_ignores_mutable (v : FusionVarCUDA) (b : Bool) :
    ({ v with mutableFlag := b } : FusionVarCUDA).declaration = v.declaration
    ∧ (∀ c, v.const = some c →
        v.declaration = "const " ++ dtype_to_ctype v.dtype ++ " v"
          ++ toString v.index ++ " " ++ constInit c ++ ";\n")
    ∧ (v.const = none →
        v.declaration = dtype_to_ctype v.dtype ++ " v"
          ++ toString v.index ++ ";\n") := by
  refine ⟨rfl, fun c hc => ?_, fun hc => ?_⟩ <;>
    simp [FusionVarCUDA.declaration, hc]

/-- Witness for the amended claim C4, at the counterexample variable. -/
theorem C4_declaration_ignores_mutable_witness :
    ({ mutatedConstVar with mutableFlag := false } : FusionVarCUDA).declaration
        = mutatedConstVar.declaration
    ∧ mutatedConstVar.declaration
        = "const " ++ dtype_to_ctype mutatedConstVar.dtype ++ " v"
          ++ toString mutatedConstVar.index ++ " "
          ++ constInit (.int 5) ++ ";\n" :=
  ⟨(C4_declaration_ignores_mutable mutatedConstVar false).1,
   (C4_declaration_ignores_mutable mutatedConstVar true).2.1 (.int 5) rfl⟩

/-! ## Claim C3 — second reduction in one trace (corrected)

The claim says the second reduction call always raises
`NotImplementedError('Multiple reduction is not implemented yet')`.  The
wrapper raises it only when the reduction's *argument* is a post-map
shadow (fusion.py line 931); a second reduction applied to a pre-map
shadow (e.g. `sum(x) + sum(x)`) instead fails the
`assert self.reduce_op is None` at the top of `set_reduce_op`
(line 495).  Either way the call errors, so at most one reduction is
ever recorded per trace. -/

/-- Claim C3 counterexample: after a first successful reduction, a
second reduction applied to the same pre-map array shadow fails with an
assertion error, not with the Not-implemented error the claim states. -/
theorem C3_counterexample :
    (match reduction_call exHistory exSumOp [exArrayVar] with
      | .ok _ => true
      | .error _ => false) = true
    ∧ reduction_call exAfterFirstReduction exSumOp [exArrayVar]
        = .error .assertionError
    ∧ FusionError.assertionError
        ≠ FusionError.multipleReductionNotImplemented :=
  ⟨by decide, by decide, by decide⟩

/-- Claim C3 (amended): once a reduction has been recorded
(`reduce_op` is set), every further reduction call fails — with the
Not-implemented error when its argument is a post-map shadow, and with
the `reduce_op is None` assertion otherwise — so at most one reduction
is ever recorded per trace. -/
theorem C3_second_reduction_always_fails (h : FusionHistory)
    (rop : ReductionUfunc) (arg : FusionVar) (axis : Option ReduceAxis)
    (out : Option FusionVar) (hr : h.reduce_op.isSome = true) :
    reduction_call h rop [arg] axis out
      = .error (if arg.isPostmap then .multipleReductionNotImplemented
                else .assertionError)
    ∧ ∀ h' s, reduction_call h rop [arg] axis out ≠ .ok (h', s) := by
  have hmain : reduction_call h rop [arg] axis out
      = .error (if arg.isPostmap then .multipleReductionNotImplemented
                else .assertionError) := by
    simp only [reduction_call, FusionHistory.set_reduce_op, hr, if_true]
    cases hp : arg.isPostmap <;> simp
  exact ⟨hmain, fun h' s hok => by rw [hmain] at hok; cases hok⟩

/-- Witness for the amended claim C3: the concrete second reduction of
the counterexample scenario, with a pre-map argument. -/
theorem C3_second_reduction_always_fails_witness :
    reduction_call exAfterFirstReduction exSumOp [exArrayVar]
        = .error (if exArrayVar.isPostmap
                  then .multipleReductionNotImplemented
                  else .assertionError)
    ∧ exAfterFirstReduction.reduce_op.isSome = true :=
  ⟨(C3_second_reduction_always_fails exAfterFirstReduction exSumOp
      exArrayVar none none (by decide)).1, by decide⟩

end CupyFusion

namespace CupyFusion

/-! ## Claim C5 — post-reduction rank -/

/-- The axis arithmetic and shadow construction at the tail of the
reduction wrapper, with the computed rank abstracted: the shape of the
term `reduction_call` reduces to once the argument has been lifted. -/
theorem reduction_tail_ok (r : Int) (p : FusionHistory × FusionVarCUDA)
    (h' : FusionHistory) (s : FusionVar)
    (hok : (if r < 0 then throw FusionError.axisOutOfBounds
            else if r ≥ 1 then
              pure ({ p.1 with ndim := r }, FusionVar.array p.2 r.toNat true)
            else pure ({ p.1 with ndim := r }, FusionVar.scalar p.2 true)
            : Except FusionError (FusionHistory × FusionVar))
        = .ok (h', s)) :
    0 ≤ r ∧ s.ndim = (if 1 ≤ r then r else -1)
      ∧ (r ≤ 0 → s.isScalarShadow = true) ∧ h'.ndim = r := by
  by_cases hneg : r < 0
  · rw [if_pos hneg] at hok; cases hok
  · rw [if_neg hneg] at hok
    have h0 : 0 ≤ r := by omega
    by_cases h1 : r ≥ 1
    · rw [if_pos h1] at hok
      simp only [except_pure_eq_ok, Except.ok.injEq, Prod.mk.injEq] at hok
      obtain ⟨rfl, rfl⟩ := hok
      refine ⟨h0, ?_, fun hle => by omega, rfl⟩
      rw [if_pos h1]
      simp [FusionVar.ndim, Int.toNat_of_nonneg h0]
    · rw [if_neg h1] at hok
      simp only [except_pure_eq_ok, Except.ok.injEq, Prod.mk.injEq] at hok
      obtain ⟨rfl, rfl⟩ := hok
      exact ⟨h0, by rw [if_neg h1]; rfl, fun _ => rfl, rfl⟩

/-- The same tail for a negative computed rank: the axis-out-of-bounds
error is raised. -/
theorem reduction_tail_neg (r : Int) (a b : Except FusionError
    (FusionHistory × FusionVar)) (hneg : r < 0) :
    (if r < 0 then throw FusionError.axisOutOfBounds
     else if r ≥ 1 then a else b) = .error .axisOutOfBounds :=
  if_pos hneg

/-- Claim C5: for every reduction call inside a trace, a tuple/list axis
reduces the argument's rank (clamped to at least 0) by its length, a
scalar axis by one, and an absent axis reduces to rank zero; a rank of
zero (or, vacuously, below one) is realized as a scalar shadow with
`ndim = -1`, a rank of at least one as an array shadow of that rank; and
when the computed rank is negative the call fails with the
axis-out-of-bounds error. -/
theorem C5_reduction_rank (h : FusionHistory) (rop : ReductionUfunc)
    (arg : FusionVar) (axis : Option ReduceAxis) (out : Option FusionVar) :
    (∀ h' s, reduction_call h rop [arg] axis out = .ok (h', s) →
      0 ≤ reducedRank (max 0 arg.ndim) axis
      ∧ s.ndim = (if 1 ≤ reducedRank (max 0 arg.ndim) axis
                  then reducedRank (max 0 arg.ndim) axis else -1)
      ∧ (reducedRank (max 0 arg.ndim) axis ≤ 0 → s.isScalarShadow = true)
      ∧ h'.ndim = reducedRank (max 0 arg.ndim) axis
      ∧ (axis = none → s.ndim = -1))
    ∧ (∀ h₁ v, arg.isPostmap = false →
        h.set_reduce_op rop arg { axis := axis, out := out } = .ok (h₁, v) →
        reducedRank (max 0 arg.ndim) axis < 0 →
        reduction_call h rop [arg] axis out = .error .axisOutOfBounds) := by
  constructor
  · intro h' s hok
    simp only [reduction_call] at hok
    cases hp : arg.isPostmap with
    | true => rw [hp] at hok; simp at hok
    | false =>
      rw [hp] at hok
      simp only [Bool.false_eq_true, if_false] at hok
      cases hs : h.set_reduce_op rop arg { axis := axis, out := out } with
      | error e => rw [hs] at hok; simp at hok
      | ok p =>
        rw [hs] at hok
        simp only [except_bind_ok] at hok
        have hcore := reduction_tail_ok (reducedRank (max 0 arg.ndim) axis)
          p h' s hok
        refine ⟨hcore.1, hcore.2.1, hcore.2.2.1, hcore.2.2.2, ?_⟩
        intro hnone
        subst hnone
        rw [hcore.2.1]
        rfl
  · intro h₁ v hp hs hneg
    simp only [reduction_call, hp, Bool.false_eq_true, if_false, hs,
      except_bind_ok]
    exact reduction_tail_neg (reducedRank (max 0 arg.ndim) axis) _ _ hneg

/-- Witness for claim C5: reducing a rank-1 int64 array over the
out-of-bounds axis tuple `(0, 1)` fails with the axis-out-of-bounds
error, and over an absent axis returns a scalar shadow. -/
theorem C5_reduction_rank_witness :
    reduction_call exHistory exSumOp [exArrayVar] (some (.tuple [0, 1]))
        = .error .axisOutOfBounds
    ∧ ((reduction_call exHistory exSumOp [exArrayVar]).toOption.map
        (fun p => p.2.ndim) = some (-1)) := by
  constructor
  · exact (C5_reduction_rank exHistory exSumOp exArrayVar
      (some (.tuple [0, 1])) none).2 exSroH exSroV (by decide) (by decide)
      (by decide)
  · decide

/-! ## Claim C6 — errors during tracing leave no state behind -/

/-- Claim C6: in `Fusion.__call__`, whenever the tracing branch is taken
and the trace raises, nothing is stored in the signature memo for that
signature and the outcome is the propagated error; and on *every* path
of a call that found no trace installed, the thread-local history slot is
free again afterwards (the `finally` block deletes it on the normal and
the exceptional path alike). -/
theorem C6_trace_error_leaves_no_state {K : Type}
    (moduleIsCupy argsAcceptable : Bool) (memo : List (ParamsInfo × K))
    (params_info : ParamsInfo) (trace : Except FusionError K) :
    (fusion_call false moduleIsCupy argsAcceptable memo params_info
        trace).historyInstalled = false
    ∧ (∀ e, moduleIsCupy = true → argsAcceptable = true →
        memo.lookup params_info = none → trace = .error e →
        (fusion_call false moduleIsCupy argsAcceptable memo params_info
            trace).memo = memo
        ∧ (fusion_call false moduleIsCupy argsAcceptable memo params_info
            trace).memo.lookup params_info = none
        ∧ (fusion_call false moduleIsCupy argsAcceptable memo params_info
            trace).outcome = .raised e) := by
  constructor
  · simp only [fusion_call, if_false, Bool.false_eq_true]
    cases moduleIsCupy <;> cases argsAcceptable <;>
      cases hl : memo.lookup params_info <;> cases trace <;> simp [hl]
  · intro e hm ha hl ht
    subst hm; subst ha; subst ht
    simp [fusion_call, hl]

/-- Witness for claim C6 at a concrete one-entry scenario. -/
theorem C6_trace_error_leaves_no_state_witness :
    (fusion_call false true true ([] : List (ParamsInfo × Nat))
        [(.int32, 1)] (.error .shapeMismatch)).historyInstalled = false
    ∧ (fusion_call false true true ([] : List (ParamsInfo × Nat))
        [(.int32, 1)] (.error .shapeMismatch)).memo = []
    ∧ (fusion_call false true true ([] : List (ParamsInfo × Nat))
        [(.int32, 1)] (.error .shapeMismatch)).outcome
        = .raised .shapeMismatch := by
  have h := C6_trace_error_leaves_no_state (K := Nat) true true []
    [(.int32, 1)] (.error .shapeMismatch)
  have h2 := h.2 .shapeMismatch rfl rfl (by decide) rfl
  exact ⟨h.1, h2.1, h2.2.2⟩

end CupyFusion

namespace CupyFusion

/-! ## Claim C7 — variable indices are dense -/

theorem map_index_touch (i : Nat) (l : List FusionVarCUDA) :
    (l.map fun v => if v.index = i then v.mutate else v).map
        FusionVarCUDA.index
      = l.map FusionVarCUDA.index := by
  induction l with
  | nil => rfl
  | cons a t ih =>
    simp only [List.map_cons, ih]
    congr 1
    split <;> rfl

theorem allocatedIndices_decompose (h : FusionHistory) :
    allocatedIndices h
      = ↑(h.param_list.map FusionVarCUDA.index)
        + ↑(h.local_list.map FusionVarCUDA.index)
        + ↑(h.postmap_local_list.map FusionVarCUDA.index)
        + ↑(h.postmap_param.toList.map FusionVarCUDA.index) := by
  simp [allocatedIndices, allocatedVars]

theorem allocatedIndices_mutateVar (h : FusionHistory) (i : Nat) :
    allocatedIndices (h.mutateVar i) = allocatedIndices h
      ∧ (h.mutateVar i).count = h.count := by
  refine ⟨?_, rfl⟩
  rw [allocatedIndices_decompose, allocatedIndices_decompose]
  simp only [FusionHistory.mutateVar, map_index_touch]
  congr 1
  cases h.postmap_param with
  | none => rfl
  | some v =>
    show (↑[(if v.index = i then v.mutate else v).index] : Multiset Nat)
      = (↑[v.index] : Multiset Nat)
    split <;> rfl

theorem coe_map_append {α β : Type} (f : α → β) (l₁ l₂ : List α) :
    (↑((l₁ ++ l₂).map f) : Multiset β) = ↑(l₁.map f) + ↑(l₂.map f) := by
  rw [List.map_append, ← Multiset.coe_add]

/-- Each allocation step preserves the density invariant: the fresh
variable takes index `count` and `count` is incremented. -/
theorem applyAlloc_preserves_dense (h : FusionHistory) (s : AllocStep)
    (h' : FusionHistory) (hd : IndicesDense h)
    (hs : applyAlloc h s = some h') : IndicesDense h' := by
  unfold IndicesDense at hd ⊢
  cases s with
  | premapParam d c =>
    cases hs
    rw [allocatedIndices_decompose] at hd ⊢
    simp only [FusionHistory.fresh_premap_param, FusionHistory.fresh_index,
      coe_map_append, List.map_cons, List.map_nil, Multiset.coe_singleton]
    rw [Multiset.range_succ, ← hd, ← Multiset.singleton_add]
    abel
  | premapLocal d c =>
    cases hs
    rw [allocatedIndices_decompose] at hd ⊢
    simp only [FusionHistory.fresh_premap_local, FusionHistory.fresh_index,
      coe_map_append, List.map_cons, List.map_nil, Multiset.coe_singleton]
    rw [Multiset.range_succ, ← hd, ← Multiset.singleton_add]
    abel
  | postmapLocal d c =>
    cases hs
    rw [allocatedIndices_decompose] at hd ⊢
    simp only [FusionHistory.fresh_postmap_local, FusionHistory.fresh_index,
      coe_map_append, List.map_cons, List.map_nil, Multiset.coe_singleton]
    rw [Multiset.range_succ, ← hd, ← Multiset.singleton_add]
    abel
  | postmapParam d c =>
    simp only [applyAlloc, FusionHistory.fresh_postmap_param] at hs
    cases hpp : h.postmap_param with
    | some v =>
      rw [hpp] at hs
      simp [Except.map, Except.toOption] at hs
    | none =>
      rw [hpp] at hs
      simp only [Option.isSome_none, Bool.false_eq_true, if_false,
        FusionHistory.fresh_index, Except.map, Except.toOption,
        Option.some.injEq] at hs
      cases hs
      rw [allocatedIndices_decompose] at hd ⊢
      rw [hpp] at hd
      simp only [Option.toList_some, Option.toList_none, List.map_cons,
        List.map_nil] at hd ⊢
      rw [Multiset.range_succ, ← hd, ← Multiset.singleton_add]
      show _ + _ + _ + (↑[h.count] : Multiset Nat)
        = _ + (_ + _ + _ + (↑([] : List Nat) : Multiset Nat))
      simp only [Multiset.coe_singleton, Multiset.coe_nil, add_zero]
      abel
  | mutate i =>
    cases hs
    rw [(allocatedIndices_mutateVar h i).1, (allocatedIndices_mutateVar h i).2]
    exact hd

theorem applyAllocs_preserves_dense (steps : List AllocStep) :
    ∀ h h', IndicesDense h → applyAllocs h steps = some h' →
      IndicesDense h' := by
  induction steps with
  | nil => intro h h' hd hs; cases hs; exact hd
  | cons s rest ih =>
    intro h h' hd hs
    simp only [applyAllocs] at hs
    cases ha : applyAlloc h s with
    | none => rw [ha] at hs; cases hs
    | some h₁ =>
      rw [ha] at hs
      exact ih h₁ h' (applyAlloc_preserves_dense h s h₁ hd ha) hs

/-- Claim C7: starting from a fresh history, after any successful
sequence of variable allocations (the four fresh-variable allocators of
the tracer, interleaved with arbitrary `mutate()` calls) the indices of
all allocated CUDA variables — parameters, pre-map locals, post-map
locals and the post-map parameter — are exactly
`{0, 1, ..., count - 1}`, each index used by exactly one variable with no
gaps. -/
theorem C7_variable_indices_dense (steps : List AllocStep)
    (h' : FusionHistory) (hs : applyAllocs initialHistory steps = some h') :
    allocatedIndices h' = Multiset.range h'.count :=
  applyAllocs_preserves_dense steps initialHistory h' rfl hs

/-- Witness for claim C7 at a concrete interleaving of all allocators. -/
theorem C7_variable_indices_dense_witness :
    (applyAllocs initialHistory exAllocSteps).map allocatedIndices
      = (applyAllocs initialHistory exAllocSteps).map
          (fun h => Multiset.range h.count) := by
  cases hq : applyAllocs initialHistory exAllocSteps with
  | none => rfl
  | some h' =>
    exact congrArg some (C7_variable_indices_dense exAllocSteps h' hq)

/-! ## Claim C8 — submodule deduplication by key -/

theorem keys_dictInsert {K V : Type} [DecidableEq K]
    (d : List (K × V)) (k : K) (v : V) :
    (dictInsert d k v).map Prod.fst
      = if k ∈ d.map Prod.fst then d.map Prod.fst
        else d.map Prod.fst ++ [k] := by
  induction d with
  | nil => simp [dictInsert]
  | cons p t ih =>
    by_cases hk : p.1 = k
    · subst hk
      simp [dictInsert]
    · simp only [dictInsert, if_neg hk, List.map_cons, ih, List.mem_cons]
      by_cases hm : k ∈ t.map Prod.fst
      · rw [if_pos hm, if_pos (Or.inr hm)]
      · rw [if_neg hm,
          if_neg (fun hcon => hcon.elim (fun he => hk he.symm) hm),
          List.cons_append]

theorem mem_keys_dictInsert {K V : Type} [DecidableEq K]
    (d : List (K × V)) (k x : K) (v : V) :
    x ∈ (dictInsert d k v).map Prod.fst
      ↔ x ∈ d.map Prod.fst ∨ x = k := by
  rw [keys_dictInsert]
  by_cases hmem : k ∈ d.map Prod.fst
  · rw [if_pos hmem]
    constructor
    · exact Or.inl
    · rintro (hx | rfl)
      · exact hx
      · exact hmem
  · rw [if_neg hmem]
    simp [List.mem_append]

theorem nodup_keys_dictInsert {K V : Type} [DecidableEq K]
    (d : List (K × V)) (k : K) (v : V)
    (hnd : (d.map Prod.fst).Nodup) :
    ((dictInsert d k v).map Prod.fst).Nodup := by
  rw [keys_dictInsert]
  by_cases hmem : k ∈ d.map Prod.fst
  · rw [if_pos hmem]; exact hnd
  · rw [if_neg hmem]
    simp [List.nodup_append, hnd, hmem]

theorem add_op_submodules (h : FusionHistory) (s : Submodule)
    (args : List FusionVarCUDA) :
    (h.add_op s args).1.submodules = dictInsert h.submodules s.key s := by
  cases hr : h.has_reduction <;>
    simp [FusionHistory.add_op, hr, FusionHistory.add_premap_op,
      FusionHistory.add_postmap_op, FusionHistory.add_preamble]

theorem applyAddOps_keys_nodup
    (l : List (Submodule × List FusionVarCUDA)) :
    ∀ h₀, (submoduleKeys h₀).Nodup →
      (submoduleKeys (applyAddOps h₀ l)).Nodup := by
  induction l with
  | nil => intro h₀ hnd; exact hnd
  | cons p t ih =>
    intro h₀ hnd
    refine ih (h₀.add_op p.1 p.2).1 ?_
    unfold submoduleKeys
    rw [add_op_submodules]
    exact nodup_keys_dictInsert h₀.submodules p.1.key p.1 hnd

theorem applyAddOps_keys_mem
    (l : List (Submodule × List FusionVarCUDA)) :
    ∀ h₀ k, k ∈ submoduleKeys (applyAddOps h₀ l)
      ↔ k ∈ submoduleKeys h₀ ∨ ∃ p ∈ l, p.1.key = k := by
  induction l with
  | nil => intro h₀ k; simp [applyAddOps]
  | cons p t ih =>
    intro h₀ k
    have hstep : k ∈ submoduleKeys (h₀.add_op p.1 p.2).1
        ↔ k ∈ submoduleKeys h₀ ∨ k = p.1.key := by
      unfold submoduleKeys
      rw [add_op_submodules]
      exact mem_keys_dictInsert h₀.submodules p.1.key k p.1
    show k ∈ submoduleKeys (applyAddOps (h₀.add_op p.1 p.2).1 t) ↔ _
    rw [ih (h₀.add_op p.1 p.2).1 k, hstep]
    constructor
    · intro hor
      rcases hor with (hk | he) | hm
      · exact Or.inl hk
      · exact Or.inr ⟨p, List.mem_cons_self p t, he.symm⟩
      · rcases hm with ⟨q, hq, hqe⟩
        exact Or.inr ⟨q, List.mem_cons_of_mem p hq, hqe⟩
    · intro hor
      rcases hor with hk | ⟨q, hq, hqe⟩
      · exact Or.inl (Or.inl hk)
      · rcases List.mem_cons.1 hq with rfl | hqt
        · exact Or.inl (Or.inr hqe.symm)
        · exact Or.inr ⟨q, hqt, hqe⟩

/-- Claim C8: starting from any history whose submodule keys are
pairwise distinct, after any sequence of recorded operations the
submodule dictionary still holds pairwise-distinct keys — one entry per
distinct `(ufunc-name, dtype-tuple)` key ever inserted, even when the
same submodule key is added repeatedly — and the emitted submodule
source consists of the deduplicated preambles followed by exactly one
`code()` block per entry of that dictionary. -/
theorem C8_submodule_dedup (h₀ : FusionHistory)
    (l : List (Submodule × List FusionVarCUDA))
    (hnd : (submoduleKeys h₀).Nodup) :
    (submoduleKeys (applyAddOps h₀ l)).Nodup
    ∧ (∀ k, k ∈ submoduleKeys (applyAddOps h₀ l)
        ↔ k ∈ submoduleKeys h₀ ∨ ∃ p ∈ l, p.1.key = k)
    ∧ (applyAddOps h₀ l).emit_submodules_code
        = String.join (applyAddOps h₀ l).preamble_set
          ++ "\n".intercalate
              ((applyAddOps h₀ l).submodules.map fun kv => kv.2.code) :=
  ⟨applyAddOps_keys_nodup l h₀ hnd,
   fun k => applyAddOps_keys_mem l h₀ k, rfl⟩

/-- Witness for claim C8: recording the same `add` submodule twice plus
one `sqrt` submodule leaves pairwise-distinct keys, with the `add` key
present. -/
theorem C8_submodule_dedup_witness :
    (submoduleKeys (applyAddOps initialHistory
        [(exSubmAdd, []), (exSubmAdd, []), (exSubmSqrt, [])])).Nodup
    ∧ exSubmAdd.key ∈ submoduleKeys (applyAddOps initialHistory
        [(exSubmAdd, []), (exSubmAdd, []), (exSubmSqrt, [])]) := by
  have h8 := C8_submodule_dedup initialHistory
    [(exSubmAdd, []), (exSubmAdd, []), (exSubmSqrt, [])] List.nodup_nil
  refine ⟨h8.1, (h8.2.1 exSubmAdd.key).2 ?_⟩
  exact Or.inr ⟨(exSubmAdd, []), by simp, rfl⟩

end CupyFusion

namespace CupyFusion

/-! ## Claim C1 — casting-rule selection (`_should_use_min_scalar`,
`can_cast1`, `can_cast2`) -/

theorem kind_score_nonneg (k : NumpyKind) : 0 ≤ kind_score k := by
  cases k <;> decide

theorem isScalarShadow_eq_not_array (a : FusionVar) :
    a.isScalarShadow = !a.isArrayShadow := by
  cases a <;> rfl

/-- The sentinel fold of `_should_use_min_scalar` computes, in its two
components, the running maxima over the array kinds and the scalar
kinds. -/
theorem should_use_min_scalar_fold (l : List FusionVar) :
    ∀ a b : Int,
      l.foldl
        (fun (mk : Int × Int) arg =>
          let kind := kind_score arg.dtype.kind
          if arg.isArrayShadow then (max mk.1 kind, mk.2)
          else (mk.1, max mk.2 kind)) (a, b)
      = ((arrayKinds l).foldl max a, (scalarKinds l).foldl max b) := by
  induction l with
  | nil => intro a b; rfl
  | cons x t ih =>
    intro a b
    cases hx : x.isArrayShadow <;>
      simp [List.foldl_cons, hx, ih, arrayKinds, scalarKinds,
        List.filter_cons, isScalarShadow_eq_not_array]

theorem foldl_max_le_self (ks : List Int) : ∀ a : Int, a ≤ ks.foldl max a := by
  induction ks with
  | nil => intro a; exact le_refl a
  | cons k t ih =>
    intro a
    exact le_trans (le_max_left a k) (ih (max a k))

theorem foldl_max_bound (ks : List Int) :
    ∀ a : Int, ∀ k ∈ ks, k ≤ ks.foldl max a := by
  induction ks with
  | nil => intro a k hk; cases hk
  | cons k₀ t ih =>
    intro a k hk
    rcases List.mem_cons.1 hk with rfl | hkt
    · exact le_trans (le_max_right a k) (foldl_max_le_self t (max a k))
    · exact ih (max a k₀) k hkt

theorem foldl_max_attained (ks : List Int) :
    ∀ a : Int, ks.foldl max a = a ∨ ks.foldl max a ∈ ks := by
  induction ks with
  | nil => intro a; exact Or.inl rfl
  | cons k₀ t ih =>
    intro a
    rw [List.foldl_cons]
    rcases ih (max a k₀) with he | hmem
    · rw [he]
      rcases max_choice a k₀ with hm | hm
      · rw [hm]; exact Or.inl rfl
      · rw [hm]; exact Or.inr (List.mem_cons_self k₀ t)
    · exact Or.inr (List.mem_cons_of_mem k₀ hmem)

theorem mem_scalarKinds (l : List FusionVar) (k : Int) :
    k ∈ scalarKinds l
      ↔ ∃ a ∈ l, a.isScalarShadow = true ∧ kind_score a.dtype.kind = k := by
  simp [scalarKinds, List.mem_filter]
  constructor
  · rintro ⟨a, ⟨hal, has⟩, hk⟩; exact ⟨a, hal, has, hk⟩
  · rintro ⟨a, hal, has, hk⟩; exact ⟨a, ⟨hal, has⟩, hk⟩

theorem mem_arrayKinds (l : List FusionVar) (k : Int) :
    k ∈ arrayKinds l
      ↔ ∃ a ∈ l, a.isArrayShadow = true ∧ kind_score a.dtype.kind = k := by
  simp [arrayKinds, List.mem_filter]
  constructor
  · rintro ⟨a, ⟨hal, has⟩, hk⟩; exact ⟨a, hal, has, hk⟩
  · rintro ⟨a, hal, has, hk⟩; exact ⟨a, ⟨hal, has⟩, hk⟩

theorem scalarKinds_nonneg (l : List FusionVar) :
    ∀ k ∈ scalarKinds l, 0 ≤ k := by
  intro k hk
  rcases (mem_scalarKinds l k).1 hk with ⟨a, _, _, hk⟩
  exact hk ▸ kind_score_nonneg a.dtype.kind

/-- `_should_use_min_scalar` decides exactly the spec's condition. -/
theorem should_use_min_scalar_iff (l : List FusionVar) :
    should_use_min_scalar l = true ↔ minScalarRuleCondition l := by
  unfold should_use_min_scalar
  rw [should_use_min_scalar_fold l (-2) (-1)]
  rw [Bool.and_eq_true, decide_eq_true_eq, decide_eq_true_eq]
  constructor
  · rintro ⟨hS, hAS⟩
    have hSmem : (scalarKinds l).foldl max (-1) ∈ scalarKinds l := by
      rcases foldl_max_attained (scalarKinds l) (-1) with he | hmem
      · exact absurd he hS
      · exact hmem
    have hS0 : 0 ≤ (scalarKinds l).foldl max (-1) :=
      scalarKinds_nonneg l _ hSmem
    have hAmem : (arrayKinds l).foldl max (-2) ∈ arrayKinds l := by
      rcases foldl_max_attained (arrayKinds l) (-2) with he | hmem
      · rw [he] at hAS; omega
      · exact hmem
    constructor
    · rcases (mem_scalarKinds l _).1 hSmem with ⟨a, hal, has, _⟩
      exact ⟨a, hal, has⟩
    · intro k hk
      exact ⟨(arrayKinds l).foldl max (-2), hAmem,
        le_trans (foldl_max_bound (scalarKinds l) (-1) k hk) hAS⟩
  · rintro ⟨⟨a, hal, has⟩, hdom⟩
    have hk₀ : kind_score a.dtype.kind ∈ scalarKinds l :=
      (mem_scalarKinds l _).2 ⟨a, hal, has, rfl⟩
    have hS0 : 0 ≤ (scalarKinds l).foldl max (-1) :=
      le_trans (kind_score_nonneg a.dtype.kind)
        (foldl_max_bound (scalarKinds l) (-1) _ hk₀)
    refine ⟨by omega, ?_⟩
    rcases foldl_max_attained (scalarKinds l) (-1) with he | hmem
    · omega
    · rcases hdom _ hmem with ⟨m, hmA, hle⟩
      exact le_trans hle (foldl_max_bound (arrayKinds l) (-2) m hmA)

/-- The per-position test of `can_cast1` matches the spec's description
of the min-scalar element test. -/
theorem can_cast1_element_iff (a : FusionVar) (t : Dtype) :
    ((if a.isArrayShadow then numpy_can_cast a.dtype t
      else numpy_can_cast_value (a.cvar.const.getD (zeroValue a.dtype)) t)
      = true)
      ↔ minScalarElementTest a t := by
  unfold minScalarElementTest
  cases ha : a.isArrayShadow
  · have has : a.isScalarShadow = true := by
      rw [isScalarShadow_eq_not_array, ha]; rfl
    cases hc : a.cvar.const with
    | none => simp [ha, has, hc]
    | some c => simp [ha, has, hc]
  · have has : a.isScalarShadow = false := by
      rw [isScalarShadow_eq_not_array, ha]; rfl
    simp [ha, has]

theorem can_cast1_iff (nin : Nat) (args : List FusionVar)
    (ts : List Dtype) (hlen : args.length = nin)
    (hlen2 : ts.length = nin) :
    can_cast1 nin args ts = true
      ↔ ∀ i a t, i < nin → args.get? i = some a → ts.get? i = some t →
          minScalarElementTest a t := by
  unfold can_cast1
  rw [List.all_eq_true]
  constructor
  · intro hall i a t hi ha ht
    have hbody := hall i (List.mem_range.2 hi)
    rw [ha, ht] at hbody
    exact (can_cast1_element_iff a t).1 hbody
  · intro hpt i hi
    have hi' := List.mem_range.1 hi
    cases ha : args.get? i with
    | none => exact absurd (List.get?_eq_none.1 ha) (by omega)
    | some a =>
      cases ht : ts.get? i with
      | none => exact absurd (List.get?_eq_none.1 ht) (by omega)
      | some t =>
        exact (can_cast1_element_iff a t).2 (hpt i a t hi' ha ht)

theorem can_cast2_iff (nin : Nat) (args : List FusionVar)
    (ts : List Dtype) (hlen : args.length = nin) (hlen2 : ts.length = nin) :
    can_cast2 nin args ts = true
      ↔ ∀ i a t, i < nin → args.get? i = some a → ts.get? i = some t →
          numpy_can_cast a.dtype t = true := by
  unfold can_cast2
  rw [List.all_eq_true]
  constructor
  · intro hall i a t hi ha ht
    have hbody := hall i (List.mem_range.2 hi)
    rw [ha, ht] at hbody
    exact hbody
  · intro hpt i hi
    have hi' := List.mem_range.1 hi
    cases ha : args.get? i with
    | none => exact absurd (List.get?_eq_none.1 ha) (by omega)
    | some a =>
      cases ht : ts.get? i with
      | none => exact absurd (List.get?_eq_none.1 ht) (by omega)
      | some t =>
        exact hpt i a t hi' ha ht

/-- Once its preliminaries succeed, `call_ufunc` is exactly the
overload-resolution loop under the casting rule selected by
`_should_use_min_scalar`. -/
theorem call_ufunc_eq_resolve (h : FusionHistory) (u : Ufunc)
    (args : List UfuncArg) (out : Option UfuncArg) (kw : List String)
    (h₂ : FusionHistory) (in_vars out_vars : List FusionVar) (ndim : Int)
    (hprep : call_ufunc_prepare h u args out kw
      = .ok (h₂, in_vars, out_vars, ndim)) :
    h.call_ufunc u args out kw
      = resolve_ops u (should_use_min_scalar in_vars) in_vars ndim h₂
          out_vars u.ops := by
  simp only [FusionHistory.call_ufunc, hprep, except_bind_ok]

/-- Claim C1: the casting rule of `call_ufunc` is chosen by operand
composition.  (1) The min-scalar rule is selected if and only if at
least one input is a scalar shadow and the maximum kind score over array
inputs dominates every scalar input's kind score.  (2) Under `can_cast1`
a scalar with a known constant is tested value-based against that
concrete value, a scalar without one against zero of its dtype, and
arrays at dtype level, position by position.  (3) `can_cast2` tests every
input at dtype level.  (4) `call_ufunc` resolves its overloads with
`can_cast1` exactly when `_should_use_min_scalar` holds of the lifted
inputs, and with `can_cast2` otherwise. -/
theorem C1_casting_rule_selection (in_vars : List FusionVar) :
    (should_use_min_scalar in_vars = true ↔ minScalarRuleCondition in_vars)
    ∧ (∀ nin (ts : List Dtype), in_vars.length = nin → ts.length = nin →
        ((can_cast1 nin in_vars ts = true
            ↔ ∀ i a t, i < nin → in_vars.get? i = some a →
                ts.get? i = some t → minScalarElementTest a t)
        ∧ (can_cast2 nin in_vars ts = true
            ↔ ∀ i a t, i < nin → in_vars.get? i = some a →
                ts.get? i = some t → numpy_can_cast a.dtype t = true)))
    ∧ (∀ h u args out kw h₂ iv ov ndim,
        call_ufunc_prepare h u args out kw = .ok (h₂, iv, ov, ndim) →
        h.call_ufunc u args out kw
          = resolve_ops u (should_use_min_scalar iv) iv ndim h₂ ov u.ops) :=
  ⟨should_use_min_scalar_iff in_vars,
   fun nin ts h1 h2 =>
     ⟨can_cast1_iff nin in_vars ts h1 h2, can_cast2_iff nin in_vars ts h1 h2⟩,
   fun h u args out kw h₂ iv ov ndim hprep =>
     call_ufunc_eq_resolve h u args out kw h₂ iv ov ndim hprep⟩

/-- Witness for claim C1 at the spec's own scenario (`int32-array + 1`):
the min-scalar condition holds of the lifted inputs, and the concrete
`call_ufunc` equals its resolution loop under the selected rule. -/
theorem C1_casting_rule_selection_witness :
    minScalarRuleCondition [exArrayVar32, exScalarOne]
    ∧ exHistory32.call_ufunc exAddUfunc
        [.fvar exArrayVar32, .prim .int64 (.int 1)] none []
      = resolve_ops exAddUfunc
          (should_use_min_scalar [exArrayVar32, exScalarOne])
          [exArrayVar32, exScalarOne] 1 exPrepH [] exAddUfunc.ops :=
  ⟨(C1_casting_rule_selection [exArrayVar32, exScalarOne]).1.mp (by decide),
   (C1_casting_rule_selection []).2.2 exHistory32 exAddUfunc
     [.fvar exArrayVar32, .prim .int64 (.int 1)] none [] exPrepH
     [exArrayVar32, exScalarOne] [] 1 (by decide)⟩

end CupyFusion

namespace CupyFusion

/-! ## Claim C2 — overload resolution order and failure diagnostic -/

theorem fresh_local_preserves (h : FusionHistory) (d : Dtype)
    (c : Option Value) :
    (h.fresh_local d c).2.op_list = h.op_list
    ∧ (h.fresh_local d c).2.postmap_op_list = h.postmap_op_list
    ∧ (h.fresh_local d c).2.reduce_op = h.reduce_op := by
  cases hr : h.has_reduction <;>
    simp [FusionHistory.fresh_local, hr, FusionHistory.fresh_premap_local,
      FusionHistory.fresh_postmap_local, FusionHistory.fresh_index]

theorem mutateVar_preserves (h : FusionHistory) (i : Nat) :
    (h.mutateVar i).op_list = h.op_list
    ∧ (h.mutateVar i).postmap_op_list = h.postmap_op_list
    ∧ (h.mutateVar i).reduce_op = h.reduce_op :=
  ⟨rfl, rfl, rfl⟩

/-- The output-materialization loop never touches the op lists or the
reduction state: it only allocates locals and flips mutable flags. -/
theorem commit_outputs_preserves (dts : List Dtype) (ndim : Int) :
    ∀ (idxs : List Nat) (h : FusionHistory) (ov r : List FusionVar)
      (h₁ : FusionHistory) (ov₁ r₁ : List FusionVar),
      commit_outputs dts ndim h idxs ov r = .ok (h₁, ov₁, r₁) →
      h₁.op_list = h.op_list ∧ h₁.postmap_op_list = h.postmap_op_list
        ∧ h₁.reduce_op = h.reduce_op := by
  intro idxs
  induction idxs with
  | nil =>
    intro h ov r h₁ ov₁ r₁ hok
    simp only [commit_outputs, Except.ok.injEq, Prod.mk.injEq] at hok
    rw [← hok.1]
    exact ⟨rfl, rfl, rfl⟩
  | cons i rest ih =>
    intro h ov r h₁ ov₁ r₁ hok
    simp only [commit_outputs] at hok
    split at hok
    · cases hok
    · rename_i dt hdt
      split at hok
      · rename_i o hov
        split at hok
        · exact ih (h.mutateVar o.cvar.index) ov (r ++ [o]) h₁ ov₁ r₁ hok
        · cases hok
      · rename_i hov
        have hfl := fresh_local_preserves h dt none
        have hrec := ih _ _ _ _ _ _ hok
        rw [hrec.1, hrec.2.1, hrec.2.2]
        exact ⟨hfl.1, hfl.2.1, hfl.2.2⟩

/-- When every overload entry fails the selected rule, the resolution
loop raises the type-cast diagnostic listing the input dtypes and the
requested output dtypes. -/
theorem resolve_ops_all_fail (u : Ufunc) (useMin : Bool)
    (in_vars : List FusionVar) (ndim : Int) (h : FusionHistory)
    (out_vars : List FusionVar) :
    ∀ ops, (∀ e ∈ ops, entryPasses useMin u.nin in_vars e = false) →
      resolve_ops u useMin in_vars ndim h out_vars ops
        = .error (.invalidTypeCast u.name (in_vars.map FusionVar.dtype)
            (out_vars.map FusionVar.dtype)) := by
  intro ops
  induction ops with
  | nil => intro _; rfl
  | cons e rest ih =>
    intro hfail
    obtain ⟨ind, outd, opstr⟩ := e
    have hf := hfail (ind, outd, opstr) (List.mem_cons_self _ _)
    simp only [entryPasses] at hf
    simp only [resolve_ops, hf, Bool.false_eq_true, if_false]
    exact ih fun e he => hfail e (List.mem_cons_of_mem _ he)

/-- When the resolution loop succeeds, the selected entry is the first
entry passing the selected rule, and exactly one operation bound to a
submodule built from that entry has been appended to the active phase's
op list. -/
theorem resolve_ops_ok (u : Ufunc) (useMin : Bool)
    (in_vars : List FusionVar) (ndim : Int) (h : FusionHistory)
    (out_vars : List FusionVar) :
    ∀ ops h' ret,
      resolve_ops u useMin in_vars ndim h out_vars ops = .ok (h', ret) →
      ∃ pre entry rest, ops = pre ++ entry :: rest
        ∧ (∀ e ∈ pre, entryPasses useMin u.nin in_vars e = false)
        ∧ entryPasses useMin u.nin in_vars entry = true
        ∧ ∃ op : FusionOp,
            ((h'.op_list = h.op_list ++ [op]
                ∧ h'.postmap_op_list = h.postmap_op_list)
              ∨ (h'.postmap_op_list = h.postmap_op_list ++ [op]
                ∧ h'.op_list = h.op_list))
            ∧ op.submodule.name = u.name
            ∧ op.submodule.op = entry.2.2
            ∧ op.submodule.preamble = u.preamble := by
  intro ops
  induction ops with
  | nil => intro h' ret hok; cases hok
  | cons e rest ih =>
    intro h' ret hok
    obtain ⟨ind, outd, opstr⟩ := e
    by_cases hpass : (if useMin then can_cast1 u.nin in_vars ind
        else can_cast2 u.nin in_vars ind) = true
    · simp only [resolve_ops, hpass, if_true] at hok
      cases hc : commit_outputs outd ndim h (List.range u.nout) out_vars []
        with
      | error ec => rw [hc] at hok; cases hok
      | ok trip =>
        rw [hc] at hok
        obtain ⟨h₁, ov', ret'⟩ := trip
        simp only [except_bind_ok] at hok
        cases hbi : build_params ind in_vars "in" with
        | error e₁ => rw [hbi] at hok; cases hok
        | ok in_params =>
          rw [hbi] at hok
          cases hbo : build_params outd ov' "out" with
          | error e₂ => rw [hbo] at hok; cases hok
          | ok out_params =>
            rw [hbo] at hok
            simp only [except_bind_ok, Except.ok.injEq, Prod.mk.injEq]
              at hok
            have hpres := commit_outputs_preserves outd ndim
              (List.range u.nout) h out_vars [] h₁ ov' ret' hc
            refine ⟨[], (ind, outd, opstr), rest, rfl, by simp,
              hpass, ?_⟩
            cases hr₁ : h₁.has_reduction with
            | false =>
              refine ⟨⟨h₁.op_list.length,
                  ⟨u.name, in_params, out_params, opstr, u.preamble⟩,
                  (in_vars ++ ov').map FusionVar.cvar⟩, ?_, rfl, rfl, rfl⟩
              left
              rw [← hok.1]
              constructor
              · show (h₁.add_op _ _).1.op_list = h.op_list ++ _
                rw [← hpres.1]
                simp [FusionHistory.add_op, hr₁,
                  FusionHistory.add_premap_op, FusionHistory.add_preamble]
              · show (h₁.add_op _ _).1.postmap_op_list = h.postmap_op_list
                rw [← hpres.2.1]
                simp [FusionHistory.add_op, hr₁,
                  FusionHistory.add_premap_op, FusionHistory.add_preamble]
            | true =>
              refine ⟨⟨h₁.postmap_op_list.length,
                  ⟨u.name, in_params, out_params, opstr, u.preamble⟩,
                  (in_vars ++ ov').map FusionVar.cvar⟩, ?_, rfl, rfl, rfl⟩
              right
              rw [← hok.1]
              constructor
              · show (h₁.add_op _ _).1.postmap_op_list
                  = h.postmap_op_list ++ _
                rw [← hpres.2.1]
                simp [FusionHistory.add_op, hr₁,
                  FusionHistory.add_postmap_op, FusionHistory.add_preamble]
              · show (h₁.add_op _ _).1.op_list = h.op_list
                rw [← hpres.1]
                simp [FusionHistory.add_op, hr₁,
                  FusionHistory.add_postmap_op, FusionHistory.add_preamble]
    · have hpe : (if useMin then can_cast1 u.nin in_vars ind
          else can_cast2 u.nin in_vars ind) = false := by
        cases hx : (if useMin then can_cast1 u.nin in_vars ind
            else can_cast2 u.nin in_vars ind) with
        | true => exact absurd hx hpass
        | false => rfl
      simp only [resolve_ops, hpe, Bool.false_eq_true, if_false] at hok
      obtain ⟨pre, entry, rest', heq, hprefail, hentry, hop⟩ :=
        ih h' ret hok
      refine ⟨(ind, outd, opstr) :: pre, entry, rest',
        by rw [heq]; rfl, ?_, hentry, hop⟩
      intro e he
      rcases List.mem_cons.1 he with rfl | hpre
      · exact hpe
      · exact hprefail e hpre

end CupyFusion

namespace CupyFusion

/-- Claim C2: once its preliminaries succeed, `call_ufunc` iterates the
ufunc's `ops` table in declared order under the selected casting rule.
If no entry passes, the call fails with the TypeError diagnostic listing
the input dtypes and the requested output dtypes (and, the result being
an error, no operation is recorded).  If the call succeeds, the selected
entry is the first passing one, and exactly one operation — bound to a
submodule carrying the ufunc's name and that entry's body — has been
appended to the active phase's op list. -/
theorem C2_overload_resolution (h : FusionHistory) (u : Ufunc)
    (args : List UfuncArg) (out : Option UfuncArg) (kw : List String)
    (h₂ : FusionHistory) (in_vars out_vars : List FusionVar) (ndim : Int)
    (hprep : call_ufunc_prepare h u args out kw
      = .ok (h₂, in_vars, out_vars, ndim)) :
    ((∀ e ∈ u.ops, opPasses u in_vars e = false) →
        h.call_ufunc u args out kw
          = .error (.invalidTypeCast u.name (in_vars.map FusionVar.dtype)
              (out_vars.map FusionVar.dtype)))
    ∧ (∀ h' ret, h.call_ufunc u args out kw = .ok (h', ret) →
        ∃ pre entry rest, u.ops = pre ++ entry :: rest
          ∧ (∀ e ∈ pre, opPasses u in_vars e = false)
          ∧ opPasses u in_vars entry = true
          ∧ ∃ op : FusionOp,
              ((h'.op_list = h₂.op_list ++ [op]
                  ∧ h'.postmap_op_list = h₂.postmap_op_list)
                ∨ (h'.postmap_op_list = h₂.postmap_op_list ++ [op]
                  ∧ h'.op_list = h₂.op_list))
              ∧ op.submodule.name = u.name
              ∧ op.submodule.op = entry.2.2) := by
  have hres := call_ufunc_eq_resolve h u args out kw h₂ in_vars out_vars
    ndim hprep
  constructor
  · intro hallfail
    rw [hres]
    exact resolve_ops_all_fail u (should_use_min_scalar in_vars) in_vars
      ndim h₂ out_vars u.ops hallfail
  · intro h' ret hok
    rw [hres] at hok
    obtain ⟨pre, entry, rest, heq, hprefail, hentry, op, hoplist, hname,
      hbody, _⟩ := resolve_ops_ok u (should_use_min_scalar in_vars)
        in_vars ndim h₂ out_vars u.ops h' ret hok
    exact ⟨pre, entry, rest, heq, hprefail, hentry, op, hoplist, hname,
      hbody⟩

/-- Witness for claim C2: on an int32 array, a ufunc whose only overload
requires bool inputs fails with the diagnostic listing the int32 input
dtype and the (empty) requested output dtypes. -/
theorem C2_overload_resolution_witness :
    exHistory32.call_ufunc exBoolOnlyUfunc [.fvar exArrayVar32] none []
      = .error (.invalidTypeCast "boolonly" [.int32] []) := by
  have h2 := (C2_overload_resolution exHistory32 exBoolOnlyUfunc
    [.fvar exArrayVar32] none [] exHistory32 [exArrayVar32] [] 1
    (by decide)).1 (by decide)
  exact h2

/-! ## Claim C10 — `astype` with `copy=False` and an equal dtype -/

/-- `call_ufunc` propagates a failure of its preliminary stages. -/
theorem call_ufunc_eq_error (h : FusionHistory) (u : Ufunc)
    (args : List UfuncArg) (out : Option UfuncArg) (kw : List String)
    (e : FusionError)
    (hprep : call_ufunc_prepare h u args out kw = .error e) :
    h.call_ufunc u args out kw = .error e := by
  simp only [FusionHistory.call_ufunc, hprep, except_bind_error]

/-- When every argument is an already-lifted shadow of the right phase
and there is no `out`, the preliminary stages of `call_ufunc` leave the
history untouched. -/
theorem call_ufunc_prepare_fvar_history (h : FusionHistory) (u : Ufunc)
    (s : FusionVar) (h₂ : FusionHistory) (iv ov : List FusionVar)
    (ndim : Int)
    (hprep : call_ufunc_prepare h u [.fvar s] none []
      = .ok (h₂, iv, ov, ndim)) : h₂ = h := by
  simp only [call_ufunc_prepare, List.foldlM, FusionHistory.get_fusion_var]
    at hprep
  by_cases hph : s.isPostmap = h.has_reduction
  · rw [if_pos hph] at hprep
    simp only [except_bind_ok, except_pure_eq_ok] at hprep
    repeat' split at hprep
    all_goals cases hprep <;> rfl
  · rw [if_neg hph] at hprep
    simp at hprep

/-- Claim C10: `astype(dtype, copy=False)` on a shadow whose dtype
already equals the target returns the very same shadow and leaves the
history — operations, submodules, variables — untouched; whenever the
cast path is taken instead (`copy=True` or a different dtype) and
succeeds, exactly one operation bound to the generated `astype_{dtype}`
cast ufunc has been appended. -/
theorem C10_astype_identity (h : FusionHistory) (s : FusionVar)
    (dtype : Dtype) :
    (s.dtype = dtype → h.astype s dtype none none none false = .ok (h, s))
    ∧ (∀ copy : Bool, (copy = true ∨ s.dtype ≠ dtype) →
        ∀ h' r, h.astype s dtype none none none copy = .ok (h', r) →
          ∃ op : FusionOp,
            ((h'.op_list = h.op_list ++ [op]
                ∧ h'.postmap_op_list = h.postmap_op_list)
              ∨ (h'.postmap_op_list = h.postmap_op_list ++ [op]
                ∧ h'.op_list = h.op_list))
            ∧ op.submodule.name = "astype_" ++ dtype.name) := by
  constructor
  · intro hdt
    simp [FusionHistory.astype, hdt]
  · intro copy hcopy h' r hok
    have hcond : ¬ (¬ copy = true ∧ s.dtype = dtype) := by
      rcases hcopy with hc | hd
      · intro hcontra; exact hcontra.1 hc
      · intro hcontra; exact hd hcontra.2
    simp only [FusionHistory.astype, Option.isSome_none,
      Bool.false_eq_true, if_false, except_pure_eq_ok, except_bind_ok]
      at hok
    rw [if_neg hcond] at hok
    cases hcall : h.call_ufunc (create_astype_ufunc dtype) [.fvar s]
        none [] with
    | error e => rw [hcall] at hok; cases hok
    | ok p =>
      rw [hcall] at hok
      simp only [except_bind_ok] at hok
      obtain ⟨h₁, rets⟩ := p
      cases hprep : call_ufunc_prepare h (create_astype_ufunc dtype)
          [.fvar s] none [] with
      | error e =>
        rw [call_ufunc_eq_error h _ [.fvar s] none [] e hprep] at hcall
        cases hcall
      | ok quad =>
        obtain ⟨h₂, iv, ov, ndim⟩ := quad
        have hh₂ : h₂ = h := call_ufunc_prepare_fvar_history h _ s h₂ iv
          ov ndim hprep
        have hres := call_ufunc_eq_resolve h _ [.fvar s] none [] h₂ iv ov
          ndim hprep
        rw [hres] at hcall
        obtain ⟨_, _, _, _, _, _, op, hoplist, hname, _, _⟩ :=
          resolve_ops_ok _ _ iv ndim h₂ ov _ h₁ rets hcall
        rw [hh₂] at hoplist
        refine ⟨op, ?_, hname⟩
        have hh' : h' = h₁ := by
          cases rets with
          | nil => cases hok
          | cons r₀ rtail =>
            cases rtail with
            | nil =>
              have hok' : (Except.ok (h₁, r₀)
                  : Except FusionError (FusionHistory × FusionVar))
                  = .ok (h', r) := hok
              rw [Except.ok.injEq, Prod.mk.injEq] at hok'
              exact hok'.1.symm
            | cons r₁ rtail₂ => cases hok
        rw [hh']
        exact hoplist

/-- Witness for claim C10: `astype(int32, copy=False)` on the int32
array shadow returns the same shadow with the history unchanged. -/
theorem C10_astype_identity_witness :
    exHistory32.astype exArrayVar32 .int32 none none none false
      = .ok (exHistory32, exArrayVar32) :=
  (C10_astype_identity exHistory32 exArrayVar32 .int32).1 rfl

end CupyFusion
